import Mathlib

/-!
Verification of go-socket-server: store, services, controllers and session engine.

A shallow embedding of the four Go source files

* `models/user.go` (the in-memory repository with its snapshot file),
* `services/user_service.go`,
* `controllers/user_controller.go`,
* `main.go` (the per-connection command loop),

followed by theorems about them.

Modelling conventions.

* A Go `map[string]V` is a list of key/value pairs (`GoMap V`); the order of the
  list is the order in which a `range` loop visits the entries. Look-ups,
  assignments and `delete` are defined on every list; a list that stands for a
  real Go map has pairwise distinct keys (`GoMap.WF`).
* A Go `error` is `Option String` (`none` is `nil`), the string being the
  message of the error.
* The snapshot file is part of the repository state: `File.data` is what the
  file holds (`none` when it does not exist), `File.writable` says whether
  `ioutil.WriteFile` succeeds.
* `bcrypt` and the clock are external: they are parameters (`Bcrypt`, `Env`).
* The connection is a `Reader` (the lines still to arrive) and the list of
  strings handed to `writer.WriteString`.
-/

namespace GoSocketServer

/-! ## models/user.go -/

/-- Go map with string keys: the entries in iteration order. -/
abbrev GoMap (V : Type) := List (String × V)

namespace GoMap

/-- Map index expression `v, exists := m[k]`. -/
def get? {V : Type} : GoMap V → String → Option V
  | [], _ => none
  | (k', v) :: rest, k => if k' = k then some v else get? rest k

/-- Map assignment `m[k] = v`. -/
def set {V : Type} : GoMap V → String → V → GoMap V
  | [], k, v => [(k, v)]
  | (k', v') :: rest, k, v => if k' = k then (k, v) :: rest else (k', v') :: set rest k v

/-- Builtin `delete(m, k)`. -/
def delete {V : Type} (m : GoMap V) (k : String) : GoMap V :=
  m.filter (fun e => decide (e.1 ≠ k))

/-- Keys of the map, in iteration order. -/
def keys {V : Type} (m : GoMap V) : List String := m.map Prod.fst

/-- Values of the map, in iteration order (`for _, v := range m`). -/
def values {V : Type} (m : GoMap V) : List V := m.map Prod.snd

/-- Representation invariant of a Go map: no key occurs twice. -/
def WF {V : Type} (m : GoMap V) : Prop := (keys m).Nodup

instance {V : Type} (m : GoMap V) : Decidable (WF m) := by
  unfold WF; infer_instance

end GoMap

/-- Go `error`: `none` is `nil`, `some msg` an error with message `msg`. -/
abbrev error := Option String

/-- User struct of `models/user.go`. -/
structure User where
  Username : String
  Password : String
  Role : String
  Status : String
  Name : String
  Surname : String
  FavAnimal : String
  FavMovie : String
  YearOfBirth : String
  CityOfBirth : String
  FootballTeam : String
deriving DecidableEq, Repr

/-- Zero value `User{}`. -/
def User.zero : User := ⟨"", "", "", "", "", "", "", "", "", "", ""⟩

/-- Blog struct of `models/user.go`. -/
structure Blog where
  ID : String
  Author : String
  Title : String
  Text : String
deriving DecidableEq, Repr

/-- State of the file named by `repo.file`: whether a write to it succeeds and
the snapshot it holds (the exported fields `Users` and `Blogs` of the last
successful `saveToFile`), `none` when the file does not exist. -/
structure File where
  writable : Bool
  data : Option (GoMap User × GoMap Blog)
deriving DecidableEq, Repr

/-- InMemoryUserRepository of `models/user.go`; the field `file` carries the
state of the file instead of its path. -/
structure InMemoryUserRepository where
  Users : GoMap User
  Blogs : GoMap Blog
  file : File
deriving DecidableEq, Repr

namespace InMemoryUserRepository

/-- Method `loadFromFile` run on the fresh repository of
`NewInMemoryUserRepository`: a missing file leaves both maps empty, otherwise
the two collections of the snapshot are unmarshalled into them. -/
def NewInMemoryUserRepository (file : File) : InMemoryUserRepository :=
  match file.data with
  | none => { Users := [], Blogs := [], file := file }
  | some (users, blogs) => { Users := users, Blogs := blogs, file := file }

/-- Method `saveToFile`: marshals `Users` and `Blogs` and overwrites the file; a
failed write is only logged. -/
def saveToFile (repo : InMemoryUserRepository) : InMemoryUserRepository :=
  if repo.file.writable then
    { repo with file := { repo.file with data := some (repo.Users, repo.Blogs) } }
  else repo

/-- Method `CreateUser`. -/
def CreateUser (repo : InMemoryUserRepository) (user : User) :
    InMemoryUserRepository × error :=
  match repo.Users.get? user.Username with
  | some _ => (repo, some "User already exists")
  | none => (saveToFile { repo with Users := repo.Users.set user.Username user }, none)

/-- Method `FindUserByUsername`. -/
def FindUserByUsername (repo : InMemoryUserRepository) (username : String) :
    Except String User :=
  match repo.Users.get? username with
  | none => .error "User not found"
  | some user => .ok user

/-- Method `UpdateUser`. -/
def UpdateUser (repo : InMemoryUserRepository) (user : User) :
    InMemoryUserRepository × error :=
  (saveToFile { repo with Users := repo.Users.set user.Username user }, none)

/-- Method `DeleteUser`. -/
def DeleteUser (repo : InMemoryUserRepository) (username : String) :
    InMemoryUserRepository × error :=
  match repo.Users.get? username with
  | none => (repo, some "User not found")
  | some _ => (saveToFile { repo with Users := repo.Users.delete username }, none)

/-- Method `GetAllUsers`. -/
def GetAllUsers (repo : InMemoryUserRepository) : List User :=
  repo.Users.values.foldl (fun users user => users ++ [user]) []

/-- Method `GetPendingAdmins`. -/
def GetPendingAdmins (repo : InMemoryUserRepository) : List User :=
  repo.Users.values.foldl
    (fun pending user =>
      if user.Status = "pending" ∧ user.Role = "admin" then pending ++ [user] else pending) []

/-- Method `ApproveAdmin`. -/
def ApproveAdmin (repo : InMemoryUserRepository) (username : String) :
    InMemoryUserRepository × error :=
  match repo.Users.get? username with
  | none => (repo, some "User not found")
  | some user =>
    if user.Status ≠ "pending" then (repo, some "User is not pending approval")
    else
      let user := { user with Status := "approved" }
      (saveToFile { repo with Users := repo.Users.set username user }, none)

/-- Method `RejectAdmin`. -/
def RejectAdmin (repo : InMemoryUserRepository) (username : String) :
    InMemoryUserRepository × error :=
  match repo.Users.get? username with
  | none => (repo, some "User not found")
  | some user =>
    if user.Status ≠ "pending" then (repo, some "User is not pending approval")
    else (saveToFile { repo with Users := repo.Users.delete username }, none)

/-- Function `generateBlogID`; `now` is the value of `time.Now().UnixNano()`. -/
def generateBlogID (now : Int) : String := toString now

/-- Method `CreateBlog`; `now` is the clock reading taken by `generateBlogID`. -/
def CreateBlog (repo : InMemoryUserRepository) (now : Int) (username title text : String) :
    InMemoryUserRepository × error :=
  let blogID := generateBlogID now
  let blog : Blog := { ID := blogID, Author := username, Title := title, Text := text }
  (saveToFile { repo with Blogs := repo.Blogs.set blogID blog }, none)

/-- Method `DeleteBlog`. -/
def DeleteBlog (repo : InMemoryUserRepository) (username blogID : String) :
    InMemoryUserRepository × error :=
  match repo.Blogs.get? blogID with
  | none => (repo, some "Blog not found")
  | some blog =>
    if blog.Author ≠ username then (repo, some "You are not the author of this blog")
    else (saveToFile { repo with Blogs := repo.Blogs.delete blogID }, none)

/-- Method `GetBlogsByUser`. -/
def GetBlogsByUser (repo : InMemoryUserRepository) (username : String) : List Blog :=
  repo.Blogs.values.foldl
    (fun userBlogs blog => if blog.Author = username then userBlogs ++ [blog] else userBlogs) []

/-- Method `GetUserBlogs`. -/
def GetUserBlogs (repo : InMemoryUserRepository) (username : String) : List Blog :=
  repo.Blogs.values.foldl
    (fun userBlogs blog => if blog.Author = username then userBlogs ++ [blog] else userBlogs) []

end InMemoryUserRepository

/-! ## services/user_service.go -/

/-- The two functions of `golang.org/x/crypto/bcrypt` the service calls:
`GenerateFromPassword` returns the hash or the message of its error,
`CompareHashAndPassword hash password` is `true` when the Go function returns
`nil`. -/
structure Bcrypt where
  GenerateFromPassword : String → Except String String
  CompareHashAndPassword : String → String → Bool

namespace UserService

open InMemoryUserRepository

/-- Method `RegisterUser`. -/
def RegisterUser (bc : Bcrypt) (repo : InMemoryUserRepository)
    (username password role status : String) : InMemoryUserRepository × error :=
  match bc.GenerateFromPassword password with
  | .error err => (repo, some ("Error hashing password: " ++ err))
  | .ok hashedPassword =>
    let user : User :=
      { User.zero with
        Username := username, Password := hashedPassword, Role := role, Status := status }
    repo.CreateUser user

/-- Method `LoginUser`. -/
def LoginUser (bc : Bcrypt) (repo : InMemoryUserRepository) (username password : String) :
    Except String User :=
  match repo.FindUserByUsername username with
  | .error err => .error err
  | .ok user =>
    if bc.CompareHashAndPassword user.Password password then .ok user
    else .error "Invalid password"

/-- Method `UpdateUserProfile`. -/
def UpdateUserProfile (repo : InMemoryUserRepository)
    (username name surname favAnimal favMovie yearOfBirth city footballTeam : String) :
    InMemoryUserRepository × error :=
  match repo.FindUserByUsername username with
  | .error err => (repo, some err)
  | .ok user =>
    let user :=
      { user with
        Name := name, Surname := surname, FavAnimal := favAnimal, FavMovie := favMovie,
        YearOfBirth := yearOfBirth, CityOfBirth := city, FootballTeam := footballTeam }
    repo.UpdateUser user

/-- Method `CreateBlog`. -/
def CreateBlog (repo : InMemoryUserRepository) (now : Int) (username title text : String) :
    InMemoryUserRepository × error :=
  match repo.FindUserByUsername username with
  | .error err => (repo, some err)
  | .ok _ => repo.CreateBlog now username title text

/-- Method `DeleteBlog`. -/
def DeleteBlog (repo : InMemoryUserRepository) (username blogID : String) :
    InMemoryUserRepository × error :=
  repo.DeleteBlog username blogID

/-- Method `GetBlogsByUser`. -/
def GetBlogsByUser (repo : InMemoryUserRepository) (username : String) : List Blog :=
  repo.GetBlogsByUser username

/-- Method `GetAllUsers`. -/
def GetAllUsers (repo : InMemoryUserRepository) : List User := repo.GetAllUsers

/-- Method `DeleteUser`. -/
def DeleteUser (repo : InMemoryUserRepository) (username : String) :
    InMemoryUserRepository × error :=
  repo.DeleteUser username

/-- Method `GetPendingAdminApprovals`. -/
def GetPendingAdminApprovals (repo : InMemoryUserRepository) : List User :=
  repo.GetPendingAdmins

/-- Method `ApproveAdminRequest`. -/
def ApproveAdminRequest (repo : InMemoryUserRepository) (username : String) :
    InMemoryUserRepository × error :=
  repo.ApproveAdmin username

/-- Method `RejectAdminRequest`. -/
def RejectAdminRequest (repo : InMemoryUserRepository) (username : String) :
    InMemoryUserRepository × error :=
  repo.RejectAdmin username

/-- Method `ApplyForAdmin`: reads and writes `repo.Users` directly and does not
call `saveToFile`. -/
def ApplyForAdmin (repo : InMemoryUserRepository) (username : String) :
    InMemoryUserRepository × error :=
  match repo.Users.get? username with
  | none => (repo, some "user does not exist")
  | some user =>
    if user.Status = "pending" ∧ user.Role = "admin" then
      (repo, some "admin application already pending")
    else
      let user := { user with Status := "pending", Role := "admin" }
      ({ repo with Users := repo.Users.set username user }, none)

/-- Method `FindUserByUsername`. -/
def FindUserByUsername (repo : InMemoryUserRepository) (username : String) :
    Except String User :=
  match repo.FindUserByUsername username with
  | .error err => .error err
  | .ok user => .ok user

end UserService

/-! ## controllers/user_controller.go -/

namespace UserController

/-- Method `Register`. -/
def Register (bc : Bcrypt) (repo : InMemoryUserRepository)
    (username password role status : String) : InMemoryUserRepository × String :=
  match UserService.RegisterUser bc repo username password role status with
  | (repo, some err) => (repo, "Error: " ++ err)
  | (repo, none) => (repo, "Registration successful!")

/-- Method `Login`: the username, the admin flag and the error. -/
def Login (bc : Bcrypt) (repo : InMemoryUserRepository) (username password : String) :
    String × Bool × error :=
  match UserService.LoginUser bc repo username password with
  | .error err => ("", false, some err)
  | .ok user =>
    let isAdmin := decide (user.Role = "admin") && decide (user.Status = "approved")
    (user.Username, isAdmin, none)

/-- Method `ViewProfile`. -/
def ViewProfile (repo : InMemoryUserRepository) (username : String) : String :=
  match UserService.FindUserByUsername repo username with
  | .error err => "Error: " ++ err
  | .ok user =>
    "\nName: " ++ user.Name ++ "\nSurname: " ++ user.Surname ++
    "\nFav Animal: " ++ user.FavAnimal ++ "\nFav Movie: " ++ user.FavMovie ++
    "\nYear of Birth: " ++ user.YearOfBirth ++ "\nCity of Birth: " ++ user.CityOfBirth ++
    "\nFootball Team: " ++ user.FootballTeam

/-- Method `UpdateProfile`. -/
def UpdateProfile (repo : InMemoryUserRepository)
    (username name surname favAnimal favMovie yearOfBirth city footballTeam : String) :
    InMemoryUserRepository × String :=
  match UserService.UpdateUserProfile repo username name surname favAnimal favMovie
      yearOfBirth city footballTeam with
  | (repo, some err) => (repo, "Error: " ++ err)
  | (repo, none) => (repo, "Profile updated successfully!" ++ "\nReturning to main menu.")

/-- Method `PostBlog`. -/
def PostBlog (repo : InMemoryUserRepository) (now : Int) (username title text : String) :
    InMemoryUserRepository × String :=
  match UserService.CreateBlog repo now username title text with
  | (repo, some err) => (repo, "Error: " ++ err)
  | (repo, none) => (repo, "Blog posted successfully!")

/-- Method `DeleteBlog`. -/
def DeleteBlog (repo : InMemoryUserRepository) (username blogID : String) :
    InMemoryUserRepository × String :=
  match UserService.DeleteBlog repo username blogID with
  | (repo, some err) => (repo, "Error: " ++ err)
  | (repo, none) => (repo, "Blog deleted successfully!")

/-- Method `ViewUsers`. -/
def ViewUsers (repo : InMemoryUserRepository) : String :=
  (UserService.GetAllUsers repo).foldl
    (fun response user =>
      response ++ ("- " ++ user.Username ++ " (Role: " ++ user.Role ++ ", Status: " ++
        user.Status ++ ")\n"))
    "Users:\n"

/-- Method `DeleteUser`. -/
def DeleteUser (repo : InMemoryUserRepository) (username : String) :
    InMemoryUserRepository × String :=
  match UserService.DeleteUser repo username with
  | (repo, some err) => (repo, "Error: " ++ err)
  | (repo, none) => (repo, "User deleted successfully!")

/-- Method `ViewPendingApprovals`. -/
def ViewPendingApprovals (repo : InMemoryUserRepository) : String :=
  (UserService.GetPendingAdminApprovals repo).foldl
    (fun response user => response ++ ("- " ++ user.Username ++ "\n"))
    "Pending Admin Approvals:\n"

/-- Method `ApproveAdmin`. -/
def ApproveAdmin (repo : InMemoryUserRepository) (username : String) :
    InMemoryUserRepository × String :=
  match UserService.ApproveAdminRequest repo username with
  | (repo, some err) => (repo, "Error: " ++ err)
  | (repo, none) => (repo, "Admin request approved for user: " ++ username)

/-- Method `RejectAdmin`. -/
def RejectAdmin (repo : InMemoryUserRepository) (username : String) :
    InMemoryUserRepository × String :=
  match UserService.RejectAdminRequest repo username with
  | (repo, some err) => (repo, "Error: " ++ err)
  | (repo, none) => (repo, "Admin request rejected for user: " ++ username)

/-- Method `ApplyForAdmin`. -/
def ApplyForAdmin (repo : InMemoryUserRepository) (username : String) :
    InMemoryUserRepository × String :=
  match UserService.ApplyForAdmin repo username with
  | (repo, some err) => (repo, "Error: " ++ err)
  | (repo, none) => (repo, "Admin application submitted successfully.")

/-- Method `GetBlogsByUser`. -/
def GetBlogsByUser (repo : InMemoryUserRepository) (username : String) : List Blog :=
  UserService.GetBlogsByUser repo username

end UserController

/-! ## main.go -/

/-- Go `unicode.IsSpace`. -/
def isSpace (c : Char) : Bool :=
  let n := c.toNat
  n = 0x09 || n = 0x0A || n = 0x0B || n = 0x0C || n = 0x0D || n = 0x20 || n = 0x85 ||
  n = 0xA0 || n = 0x1680 || (0x2000 ≤ n && n ≤ 0x200A) || n = 0x2028 || n = 0x2029 ||
  n = 0x202F || n = 0x205F || n = 0x3000

/-- Go `strings.TrimSpace`. -/
def TrimSpace (s : String) : String :=
  String.mk ((s.data.dropWhile isSpace).reverse.dropWhile isSpace).reverse

/-- Scanner of `strings.Fields`: `cur` is the field being read, reversed. -/
def FieldsFrom : List Char → List Char → List String
  | cur, [] => if cur = [] then [] else [String.mk cur.reverse]
  | cur, c :: cs =>
    if isSpace c then
      if cur = [] then FieldsFrom [] cs else String.mk cur.reverse :: FieldsFrom [] cs
    else FieldsFrom (c :: cur) cs

/-- Go `strings.Fields`. -/
def Fields (s : String) : List String := FieldsFrom [] s.data

/-- Value of a string of decimal digits, `none` when a character is not one. -/
def digitsValue : List Char → Nat → Option Nat
  | [], acc => some acc
  | c :: cs, acc =>
    if '0' ≤ c ∧ c ≤ '9' then digitsValue cs (acc * 10 + (c.toNat - '0'.toNat)) else none

/-- Go `strconv.Atoi` on a 64-bit platform: `none` when it returns an error (bad
syntax, or a value outside the range of `int`). -/
def Atoi (s : String) : Option Int :=
  let (neg, digits) :=
    match s.data with
    | '-' :: cs => (true, cs)
    | '+' :: cs => (false, cs)
    | cs => (false, cs)
  if digits = [] then none
  else
    match digitsValue digits 0 with
    | none => none
    | some n =>
      if neg then (if n ≤ 2 ^ 63 then some (-(n : Int)) else none)
      else (if n < 2 ^ 63 then some (n : Int) else none)

/-- Function `displayMenu`. -/
def displayMenu (isAdmin : Bool) : String :=
  if isAdmin then
    "Available commands:\n" ++ "- list-pending\n" ++ "- list-users\n" ++ "- view-profile\n" ++
      "- my-blogs\n" ++ "- apply-admin\n" ++ "- exit\n"
  else
    "Available commands:\n" ++ "- view-profile\n" ++ "- my-blogs\n" ++ "- apply-admin\n" ++
      "- exit\n"

/-- What the peer sends before the connection fails: the complete lines (without
their newline) and the bytes that follow the last newline. -/
structure Reader where
  lines : List String
  rest : String
deriving DecidableEq, Repr

/-- Method `reader.ReadString` with delimiter newline: the data, and whether an
error is returned with it. After the last line the remaining bytes come with an
error, and every later read returns the empty string with an error. -/
def Reader.ReadString (r : Reader) : (String × Bool) × Reader :=
  match r.lines with
  | l :: ls => ((l ++ "\n", false), { r with lines := ls })
  | [] => ((r.rest, true), { r with rest := "" })

/-- External collaborators of a session: bcrypt and the clock, `now n` being the
reading of `time.Now().UnixNano()` at the `n`-th blog post. -/
structure Env where
  bcrypt : Bcrypt
  now : Nat → Int

/-- State a connection handler works on: the shared repository, the number of
blog posts made so far, the reader, and the strings written to the client. -/
structure Session where
  repo : InMemoryUserRepository
  ticks : Nat
  reader : Reader
  out : List String
deriving DecidableEq, Repr

/-- Call `writer.WriteString(str)` (every write is followed by a `Flush` before
the next read or return). -/
def Session.write (s : Session) (str : String) : Session :=
  { s with out := s.out ++ [str] }

/-- Sub-dialogue read `x, _ := reader.ReadString(newline)` followed by
`strings.TrimSpace`: the error is dropped. -/
def Session.readTrimmed (s : Session) : String × Session :=
  let ((data, _), r) := s.reader.ReadString
  (TrimSpace data, { s with reader := r })

/-- How an iteration of a command loop ends: with the next iteration, with a
return from `handleConnection`, or (outer loop only) by entering the inner loop
as a logged-in user. -/
inductive Flow where
  | next
  | stop
  | login (loggedInUser : String) (isAdmin : Bool)
deriving DecidableEq, Repr

/-- Listing built by the `my-blogs` case: one numbered entry per blog. -/
def blogListing : List Blog → Nat → String → String
  | [], _, response => response
  | blog :: blogs, i, response =>
    blogListing blogs (i + 1)
      (response ++ (toString (i + 1) ++ ". " ++ blog.Title ++ "\n" ++ blog.Text ++ "\n"))

/-- Case `view-profile` of the inner loop, up to the final write of `response`. -/
def viewProfileCase (loggedInUser : String) (isAdmin : Bool) (s : Session) : Session × String :=
  let response := UserController.ViewProfile s.repo loggedInUser
  let s := s.write (response ++ "\nWould you like to edit your profile? (yes/no): ")
  let (editResponse, s) := s.readTrimmed
  if editResponse = "yes" then
    let s := s.write "Name: "
    let (name, s) := s.readTrimmed
    let s := s.write "Surname: "
    let (surname, s) := s.readTrimmed
    let s := s.write "Favorite Animal: "
    let (favAnimal, s) := s.readTrimmed
    let s := s.write "Favorite Movie: "
    let (favMovie, s) := s.readTrimmed
    let s := s.write "Year of Birth: "
    let (yearOfBirth, s) := s.readTrimmed
    let s := s.write "City of Birth: "
    let (city, s) := s.readTrimmed
    let s := s.write "Football Team: "
    let (footballTeam, s) := s.readTrimmed
    let (repo, text) :=
      UserController.UpdateProfile s.repo loggedInUser name surname favAnimal favMovie
        yearOfBirth city footballTeam
    let s := { s with repo := repo }
    let s := s.write (text ++ "\n")
    (s, displayMenu isAdmin)
  else
    (s, "Profile edit canceled.\nReturning to main menu.\n")

/-- Case `my-blogs` of the inner loop, up to the final write of `response`. -/
def myBlogsCase (env : Env) (loggedInUser : String) (isAdmin : Bool) (s : Session) :
    Session × String :=
  let blogs := UserController.GetBlogsByUser s.repo loggedInUser
  let response := blogListing blogs 0 "Your Blogs:\n"
  let s := s.write
    (response ++ "\nWould you like to post a new blog or delete one? (post/delete/exit): ")
  let (actionResponse, s) := s.readTrimmed
  if actionResponse = "post" then
    let s := s.write "Blog Title: "
    let (title, s) := s.readTrimmed
    let s := s.write "Blog Text: "
    let (text, s) := s.readTrimmed
    let (repo, response) := UserController.PostBlog s.repo (env.now s.ticks) loggedInUser title text
    ({ s with repo := repo, ticks := s.ticks + 1 }, response)
  else if actionResponse = "delete" then
    if blogs.length = 0 then
      (s, "You have no blogs to delete.\nReturning to main menu.\n")
    else
      let s := s.write "Enter the blog number to delete: "
      let (indexInput, s) := s.readTrimmed
      match Atoi indexInput with
      | none => (s, "Invalid blog number.\nReturning to main menu.\n")
      | some index =>
        if index < 1 ∨ index > (blogs.length : Int) then
          (s, "Invalid blog number.\nReturning to main menu.\n")
        else
          match blogs.get? (index - 1).toNat with
          | none => (s, "Invalid blog number.\nReturning to main menu.\n")
          | some blog =>
            let (repo, response) := UserController.DeleteBlog s.repo loggedInUser blog.ID
            ({ s with repo := repo }, response)
  else if actionResponse = "exit" then
    (s, displayMenu isAdmin)
  else
    (s, "Invalid option. Returning to main menu.")

/-- Case `list-pending` of the inner loop, up to the final write of `response`. -/
def listPendingCase (isAdmin : Bool) (s : Session) : Session × String :=
  if !isAdmin then
    (s, "You do not have permission to perform this action.\nReturning to main menu.\n")
  else
    let response := UserController.ViewPendingApprovals s.repo
    let s := s.write
      (response ++ "\nWould you like to approve or reject any application? (approve/reject/exit): ")
    let (approvalResponse, s) := s.readTrimmed
    if approvalResponse = "approve" then
      let s := s.write "Username to approve: "
      let (username, s) := s.readTrimmed
      let (repo, response) := UserController.ApproveAdmin s.repo username
      ({ s with repo := repo }, response)
    else if approvalResponse = "reject" then
      let s := s.write "Username to reject: "
      let (username, s) := s.readTrimmed
      let (repo, response) := UserController.RejectAdmin s.repo username
      ({ s with repo := repo }, response)
    else if approvalResponse = "exit" then
      (s, "Exiting pending approvals.\nReturning to main menu.")
    else
      (s, "Invalid option.\n")

/-- Body of the inner (logged-in) loop of `handleConnection` for a line
`command` that was read without error. -/
def authStep (env : Env) (loggedInUser : String) (isAdmin : Bool) (command : String)
    (s : Session) : Session × Flow :=
  let command := TrimSpace command
  let commandParts := Fields command
  match commandParts with
  | [] => (s.write "Invalid command format.\nReturning to main menu.\n", Flow.next)
  | cmd :: _ =>
    if cmd = "exit" then
      (s.write ("Goodbye!" ++ "\n"), Flow.stop)
    else
      let (s, response) :=
        if cmd = "view-profile" then viewProfileCase loggedInUser isAdmin s
        else if cmd = "my-blogs" then myBlogsCase env loggedInUser isAdmin s
        else if cmd = "apply-admin" then
          let (repo, response) := UserController.ApplyForAdmin s.repo loggedInUser
          ({ s with repo := repo }, response)
        else if cmd = "list-pending" then listPendingCase isAdmin s
        else if cmd = "list-users" then
          if !isAdmin then
            (s, "You do not have permission to perform this action.\nReturning to main menu.\n")
          else (s, UserController.ViewUsers s.repo)
        else (s, "Unknown command.")
      (s.write (response ++ "\n"), Flow.next)

/-- Body of the outer (not logged-in) loop of `handleConnection` for a line
`command` that was read without error. -/
def unauthStep (env : Env) (command : String) (s : Session) : Session × Flow :=
  let command := TrimSpace command
  let commandParts := Fields command
  match commandParts with
  | [] => (s.write "Invalid command format.\n", Flow.next)
  | cmd :: args =>
    if cmd = "reg" then
      match args with
      | [username, password] =>
        let (repo, response) := UserController.Register env.bcrypt s.repo username password
          "user" "pending"
        (({ s with repo := repo } : Session).write (response ++ "\n"), Flow.next)
      | _ => (s.write ("Usage: reg <username> <password>\n" ++ "\n"), Flow.next)
    else if cmd = "log" then
      match args with
      | [username, password] =>
        match UserController.Login env.bcrypt s.repo username password with
        | (_, _, some _) =>
          (s.write ("Invalid username or password. Please try again.\n" ++ "\n"), Flow.next)
        | (loggedInUser, isAdmin, none) =>
          let s :=
            if isAdmin then s.write ("Login successful. Welcome Admin, " ++ username ++ "!\n")
            else s.write ("Login successful. Welcome, " ++ username ++ "!\n")
          (s.write (displayMenu isAdmin ++ "\n"), Flow.login loggedInUser isAdmin)
      | _ => (s.write ("Usage: log <username> <password>\n" ++ "\n"), Flow.next)
    else if cmd = "exit" then
      (s.write ("Goodbye!" ++ "\n"), Flow.stop)
    else
      (s.write ("Unknown command.\n" ++ "\n"), Flow.next)

/-- Inner loop of `handleConnection`; `fuel` bounds the number of iterations and
`none` means it ran out. -/
def authLoop (env : Env) (loggedInUser : String) (isAdmin : Bool) :
    Nat → Session → Option Session
  | 0, _ => none
  | fuel + 1, s =>
    match s.reader.ReadString with
    | ((_, true), r) => some { s with reader := r }
    | ((command, false), r) =>
      match authStep env loggedInUser isAdmin command { s with reader := r } with
      | (s, Flow.next) => authLoop env loggedInUser isAdmin fuel s
      | (s, _) => some s

/-- Outer loop of `handleConnection`; `fuel` bounds the number of iterations of
both loops and `none` means it ran out. -/
def unauthLoop (env : Env) : Nat → Session → Option Session
  | 0, _ => none
  | fuel + 1, s =>
    match s.reader.ReadString with
    | ((_, true), r) => some { s with reader := r }
    | ((command, false), r) =>
      match unauthStep env command { s with reader := r } with
      | (s, Flow.next) => unauthLoop env fuel s
      | (s, Flow.stop) => some s
      | (s, Flow.login loggedInUser isAdmin) => authLoop env loggedInUser isAdmin fuel s

/-- Function `handleConnection` (without the connection registry): the welcome
text, then the command loops; every iteration reads at least one line, so one
more iteration than there are lines is enough. -/
def handleConnection (env : Env) (s : Session) : Option Session :=
  let s := s.write "******Welcome to the Go Socket Server!******\n"
  let s := s.write "Type 'reg <username> <password>' to register.\n"
  let s := s.write "Type 'log <username> <password>' to log in.\n"
  unauthLoop env (s.reader.lines.length + 1) s

/-! ## Concrete collaborators and stores used to instantiate the theorems -/

/-- A bcrypt stand-in with the length limit of the library: passwords of more
than 72 bytes are refused, a hash is the password behind a fixed tag. -/
def bcrypt72 : Bcrypt where
  GenerateFromPassword := fun password =>
    if password.utf8ByteSize > 72 then .error "bcrypt: password length exceeds 72 bytes"
    else .ok ("$2a$10$" ++ password)
  CompareHashAndPassword := fun hash password => decide (hash = "$2a$10$" ++ password)

/-- Environment with `bcrypt72` and a clock that advances by one per reading. -/
def env72 : Env where
  bcrypt := bcrypt72
  now := fun n => 1700000000000000000 + (n : Int)

/-- Sample user `alice` as registration leaves her. -/
def alice : User :=
  { User.zero with Username := "alice", Password := "$2a$10$secret", Role := "user",
                   Status := "pending" }

/-- Sample user `bob`, an approved administrator. -/
def bob : User :=
  { User.zero with Username := "bob", Password := "$2a$10$hunter2", Role := "admin",
                   Status := "approved", Name := "Bob" }

/-- Sample blogs: two by `alice`, one by `bob`. -/
def blogA1 : Blog := { ID := "101", Author := "alice", Title := "Hello", Text := "first" }

/-- Second sample blog of `alice`. -/
def blogA2 : Blog := { ID := "103", Author := "alice", Title := "Again", Text := "second" }

/-- Sample blog of `bob`. -/
def blogB1 : Blog := { ID := "102", Author := "bob", Title := "Admin", Text := "notes" }

/-- Sample repository whose snapshot file equals its memory. -/
def sampleRepo : InMemoryUserRepository :=
  { Users := [("alice", alice), ("bob", bob)],
    Blogs := [("101", blogA1), ("102", blogB1), ("103", blogA2)],
    file := { writable := true,
              data := some ([("alice", alice), ("bob", bob)],
                            [("101", blogA1), ("102", blogB1), ("103", blogA2)]) } }

/-- Session on `sampleRepo` with the given lines still to arrive. -/
def sampleSession (lines : List String) : Session :=
  { repo := sampleRepo, ticks := 0, reader := { lines := lines, rest := "" }, out := [] }

/-- A password of 73 bytes. -/
def password73 : String :=
  "xxxxxxxxxxxxxxxxxxxxxxxxxxxxxxxxxxxxxxxxxxxxxxxxxxxxxxxxxxxxxxxxxxxxxxxxx"

/-- The record `RegisterUser` hands to `CreateUser`: the four given fields, the
profile fields empty. -/
def newUser (username hashedPassword role status : String) : User :=
  { User.zero with
    Username := username, Password := hashedPassword, Role := role, Status := status }

/-- The snapshot file holds exactly the two maps in memory. -/
def Synced (repo : InMemoryUserRepository) : Prop :=
  repo.file.data = some (repo.Users, repo.Blogs)

instance (repo : InMemoryUserRepository) : Decidable (Synced repo) := by
  unfold Synced; infer_instance

/-- One entry of the `my-blogs` listing: the number, the title and the text, as
formatted by `"%d. %s\n%s\n"`. -/
def blogEntry (number : Nat) (blog : Blog) : String :=
  toString number ++ ". " ++ blog.Title ++ "\n" ++ blog.Text ++ "\n"

/-- Store invariant of the data model: both maps have pairwise distinct keys,
every user is stored under its own `Username` and every blog under its own
`ID`. -/
def Inv (repo : InMemoryUserRepository) : Prop :=
  repo.Users.WF ∧ repo.Blogs.WF ∧
  (∀ e ∈ repo.Users, e.2.Username = e.1) ∧ (∀ e ∈ repo.Blogs, e.2.ID = e.1)

instance (repo : InMemoryUserRepository) : Decidable (Inv repo) := by
  unfold Inv; infer_instance

/-- Stores reachable from the empty store (whatever the snapshot file holds)
through the repository methods, the one service method that writes the maps
itself, and the iterations of the two command loops of a session. -/
inductive Reachable : InMemoryUserRepository → Prop
  | empty (file : File) : Reachable { Users := [], Blogs := [], file := file }
  | CreateUser {repo : InMemoryUserRepository} (user : User) :
      Reachable repo → Reachable (repo.CreateUser user).1
  | UpdateUser {repo : InMemoryUserRepository} (user : User) :
      Reachable repo → Reachable (repo.UpdateUser user).1
  | DeleteUser {repo : InMemoryUserRepository} (username : String) :
      Reachable repo → Reachable (repo.DeleteUser username).1
  | ApproveAdmin {repo : InMemoryUserRepository} (username : String) :
      Reachable repo → Reachable (repo.ApproveAdmin username).1
  | RejectAdmin {repo : InMemoryUserRepository} (username : String) :
      Reachable repo → Reachable (repo.RejectAdmin username).1
  | CreateBlog {repo : InMemoryUserRepository} (now : Int) (username title text : String) :
      Reachable repo → Reachable (repo.CreateBlog now username title text).1
  | DeleteBlog {repo : InMemoryUserRepository} (username blogID : String) :
      Reachable repo → Reachable (repo.DeleteBlog username blogID).1
  | ApplyForAdmin {repo : InMemoryUserRepository} (username : String) :
      Reachable repo → Reachable (UserService.ApplyForAdmin repo username).1
  | unauthStep (env : Env) (command : String) (s : Session) :
      Reachable s.repo → Reachable (unauthStep env command s).1.repo
  | authStep (env : Env) (loggedInUser : String) (isAdmin : Bool) (command : String)
      (s : Session) :
      Reachable s.repo → Reachable (authStep env loggedInUser isAdmin command s).1.repo

/-- A property of stores kept by every operation that writes the maps: the
repository methods and `UserService.ApplyForAdmin`. -/
structure Closed (P : InMemoryUserRepository → Prop) : Prop where
  CreateUser : ∀ (repo : InMemoryUserRepository) (user : User),
    P repo → P (repo.CreateUser user).1
  UpdateUser : ∀ (repo : InMemoryUserRepository) (user : User),
    P repo → P (repo.UpdateUser user).1
  DeleteUser : ∀ (repo : InMemoryUserRepository) (username : String),
    P repo → P (repo.DeleteUser username).1
  ApproveAdmin : ∀ (repo : InMemoryUserRepository) (username : String),
    P repo → P (repo.ApproveAdmin username).1
  RejectAdmin : ∀ (repo : InMemoryUserRepository) (username : String),
    P repo → P (repo.RejectAdmin username).1
  CreateBlog : ∀ (repo : InMemoryUserRepository) (now : Int) (username title text : String),
    P repo → P (repo.CreateBlog now username title text).1
  DeleteBlog : ∀ (repo : InMemoryUserRepository) (username blogID : String),
    P repo → P (repo.DeleteBlog username blogID).1
  ApplyForAdmin : ∀ (repo : InMemoryUserRepository) (username : String),
    P repo → P (UserService.ApplyForAdmin repo username).1

/-- Environment with `bcrypt72` and a clock that returns the same reading every
time (two posts within one tick of the clock). -/
def envFrozen : Env where
  bcrypt := bcrypt72
  now := fun _ => 1700000000000000000

/-- The empty store on a writable, not yet existing snapshot file. -/
def emptyRepo : InMemoryUserRepository :=
  { Users := [], Blogs := [], file := { writable := true, data := none } }

/-- Where a connection handler stands: in the outer loop, in the inner loop with
its `loggedInUser` and `isAdmin`, or returned. -/
inductive Phase where
  | unauth
  | auth (loggedInUser : String) (isAdmin : Bool)
  | closed
deriving DecidableEq, Repr

/-- One connection: the phase of its handler, what it will still receive, and
what was written to it. -/
structure Client where
  phase : Phase
  reader : Reader
  out : List String
deriving DecidableEq, Repr

/-- A server with several connections: the repository and the clock they share,
and the connections. -/
structure Server where
  repo : InMemoryUserRepository
  ticks : Nat
  clients : List Client
deriving DecidableEq, Repr

/-- One loop iteration of the handler of a connection on the shared repository:
the iteration of `unauthLoop` or of `authLoop` its phase calls for. A handler
that has returned does nothing. -/
def Client.serve (env : Env) (repo : InMemoryUserRepository) (ticks : Nat) (c : Client) :
    (InMemoryUserRepository × Nat) × Client :=
  match c.phase with
  | Phase.closed => ((repo, ticks), c)
  | Phase.unauth =>
    match c.reader.ReadString with
    | ((_, true), r) => ((repo, ticks), { c with phase := Phase.closed, reader := r })
    | ((command, false), r) =>
      match unauthStep env command { repo := repo, ticks := ticks, reader := r, out := c.out } with
      | (s, Flow.next) =>
        ((s.repo, s.ticks), { phase := Phase.unauth, reader := s.reader, out := s.out })
      | (s, Flow.stop) =>
        ((s.repo, s.ticks), { phase := Phase.closed, reader := s.reader, out := s.out })
      | (s, Flow.login loggedInUser isAdmin) =>
        ((s.repo, s.ticks),
          { phase := Phase.auth loggedInUser isAdmin, reader := s.reader, out := s.out })
  | Phase.auth loggedInUser isAdmin =>
    match c.reader.ReadString with
    | ((_, true), r) => ((repo, ticks), { c with phase := Phase.closed, reader := r })
    | ((command, false), r) =>
      match authStep env loggedInUser isAdmin command
          { repo := repo, ticks := ticks, reader := r, out := c.out } with
      | (s, Flow.next) =>
        ((s.repo, s.ticks),
          { phase := Phase.auth loggedInUser isAdmin, reader := s.reader, out := s.out })
      | (s, _) =>
        ((s.repo, s.ticks), { phase := Phase.closed, reader := s.reader, out := s.out })

/-- The handler of connection `i` runs one loop iteration. -/
def Server.step (env : Env) (sv : Server) (i : Nat) : Server :=
  match sv.clients.get? i with
  | none => sv
  | some c =>
    let ((repo, ticks), c) := c.serve env sv.repo sv.ticks
    { repo := repo, ticks := ticks, clients := sv.clients.set i c }

/-- The handlers run loop iterations in the order given by `schedule`. -/
def Server.run (env : Env) (sv : Server) (schedule : List Nat) : Server :=
  schedule.foldl (Server.step env) sv

/-- No stored user has status "approved". -/
def NoApproved (repo : InMemoryUserRepository) : Prop :=
  ∀ e ∈ repo.Users, e.2.Status ≠ "approved"

instance (repo : InMemoryUserRepository) : Decidable (NoApproved repo) := by
  unfold NoApproved; infer_instance

/-- No connection is logged in with `isAdmin = true`. -/
def NoAdminClient (clients : List Client) : Prop :=
  ∀ c ∈ clients, ∀ (loggedInUser : String), c.phase ≠ Phase.auth loggedInUser true

/-- The handler of one connection runs `n` loop iterations in a row. -/
def Client.serveN (env : Env) :
    Nat → InMemoryUserRepository → Nat → Client → (InMemoryUserRepository × Nat) × Client
  | 0, repo, ticks, c => ((repo, ticks), c)
  | n + 1, repo, ticks, c =>
    match c.serve env repo ticks with
    | ((repo, ticks), c) => Client.serveN env n repo ticks c

/-- Text `handleConnection` writes before its first read. -/
def welcome : List String :=
  ["******Welcome to the Go Socket Server!******\n",
   "Type 'reg <username> <password>' to register.\n",
   "Type 'log <username> <password>' to log in.\n"]

/-- Two connections to a fresh server: the first registers `alice`, logs in,
applies for admin and tries the admin commands; the second registers `bob`,
logs in as `alice` and applies again. -/
def twoClients : List Client :=
  [{ phase := Phase.unauth,
     reader := { lines := ["reg alice secret", "log alice secret", "apply-admin",
                           "list-pending", "list-users"], rest := "" },
     out := [] },
   { phase := Phase.unauth,
     reader := { lines := ["reg bob pw", "log alice secret", "apply-admin", "exit"],
                 rest := "" },
     out := [] }]

/-! ## Lemmas on Go maps -/

namespace GoMap

theorem get?_set {V : Type} (m : GoMap V) (k k' : String) (v : V) :
    (m.set k v).get? k' = if k' = k then some v else m.get? k' := by
  induction m with
  | nil =>
    by_cases h : k' = k
    · simp [set, get?, h]
    · have h' : ¬ k = k' := fun e => h e.symm
      simp [set, get?, h, h']
  | cons e rest ih =>
    obtain ⟨k0, v0⟩ := e
    by_cases h0 : k0 = k
    · subst h0
      by_cases h : k' = k0
      · simp [set, get?, h]
      · have h' : ¬ k0 = k' := fun e => h e.symm
        simp [set, get?, h, h']
    · by_cases h : k0 = k'
      · subst h
        simp [set, get?, h0]
      · simp [set, get?, h0, h, ih]

theorem get?_delete {V : Type} (m : GoMap V) (k k' : String) :
    (m.delete k).get? k' = if k' = k then none else m.get? k' := by
  induction m with
  | nil => simp [delete, get?]
  | cons e rest ih =>
    obtain ⟨k0, v0⟩ := e
    unfold delete at ih ⊢
    by_cases h0 : k0 = k
    · subst h0
      by_cases h : k' = k0
      · simpa [List.filter, get?, h] using ih
      · have h' : ¬ k0 = k' := fun e => h e.symm
        simpa [List.filter, get?, h, h'] using ih
    · by_cases h : k0 = k'
      · subst h
        simp [List.filter, get?, h0]
      · simpa [List.filter, get?, h0, h] using ih

theorem get?_eq_none_iff {V : Type} (m : GoMap V) (k : String) :
    m.get? k = none ↔ k ∉ m.keys := by
  induction m with
  | nil => simp [get?, keys]
  | cons e rest ih =>
    obtain ⟨k0, v0⟩ := e
    by_cases h : k0 = k
    · simp [get?, keys, h]
    · have h' : ¬ k = k0 := fun e => h e.symm
      simp [keys] at ih
      simp [get?, keys, h, h', ih]

theorem get?_of_mem {V : Type} (m : GoMap V) (hm : m.WF) (k : String) (v : V)
    (h : (k, v) ∈ m) : m.get? k = some v := by
  induction m with
  | nil => simp at h
  | cons e rest ih =>
    obtain ⟨k0, v0⟩ := e
    simp [WF, keys] at hm
    rcases List.mem_cons.mp h with h | h
    · cases h
      simp [get?]
    · have hne : ¬ k0 = k := by
        intro e
        subst e
        exact hm.1 v h
      simp [get?, hne]
      exact ih (by simpa [WF, keys] using hm.2) h

theorem mem_of_get? {V : Type} (m : GoMap V) (k : String) (v : V)
    (h : m.get? k = some v) : (k, v) ∈ m := by
  induction m with
  | nil => simp [get?] at h
  | cons e rest ih =>
    obtain ⟨k0, v0⟩ := e
    by_cases h0 : k0 = k
    · simp [get?, h0] at h
      simp [h0, h]
    · simp [get?, h0] at h
      exact List.mem_cons_of_mem _ (ih h)

end GoMap

/-! ## Lemmas on the repository -/

namespace InMemoryUserRepository

theorem saveToFile_Users (r : InMemoryUserRepository) : r.saveToFile.Users = r.Users := by
  unfold InMemoryUserRepository.saveToFile
  split <;> rfl

theorem saveToFile_Blogs (r : InMemoryUserRepository) : r.saveToFile.Blogs = r.Blogs := by
  unfold InMemoryUserRepository.saveToFile
  split <;> rfl

theorem foldl_append_filter {α : Type} (p : α → Prop) [DecidablePred p] (l : List α)
    (acc : List α) :
    l.foldl (fun acc a => if p a then acc ++ [a] else acc) acc = acc ++ l.filter p := by
  induction l generalizing acc with
  | nil => simp
  | cons a l ih =>
    by_cases h : p a
    · simp [List.foldl, ih, h, List.filter]
    · simp [List.foldl, ih, h, List.filter]

theorem GetBlogsByUser_eq_filter (repo : InMemoryUserRepository) (username : String) :
    repo.GetBlogsByUser username =
      repo.Blogs.values.filter (fun blog => blog.Author = username) := by
  unfold GetBlogsByUser
  rw [foldl_append_filter (fun blog : Blog => blog.Author = username)]
  simp

theorem foldl_append_string (l : List String) (r : String) :
    l.foldl (fun r e => r ++ e) r = r ++ String.join l := by
  induction l generalizing r with
  | nil => simp [String.join]
  | cons e l ih =>
    have h1 := ih (r ++ e)
    have h2 := ih ("" ++ e)
    simp only [List.foldl_cons, String.join] at h1 h2 ⊢
    rw [h1, h2, String.append_assoc]
    simp

theorem blogListing_eq (blogs : List Blog) (i : Nat) (response : String) :
    blogListing blogs i response =
      response ++
        String.join ((blogs.enumFrom i).map (fun ib => blogEntry (ib.1 + 1) ib.2)) := by
  rw [← foldl_append_string]
  induction blogs generalizing i response with
  | nil => rfl
  | cons b bs ih => simp [blogListing, List.enumFrom, ih, blogEntry]

theorem count_values_filter (m : GoMap Blog) (hwf : m.WF) (username : String) (b : Blog)
    (hb : b.Author = username) :
    ((m.values.filter (fun blog => blog.Author = username)).count b) =
      (m.keys.filter (fun k => m.get? k = some b)).length := by
  induction m with
  | nil => simp [GoMap.values, GoMap.keys]
  | cons e rest ih =>
    obtain ⟨k0, v0⟩ := e
    have hwf' : GoMap.WF rest := by
      simp [GoMap.WF, GoMap.keys] at hwf ⊢
      exact hwf.2
    have hk0 : k0 ∉ GoMap.keys rest := by
      simp [GoMap.WF, GoMap.keys] at hwf ⊢
      exact hwf.1
    have hrest : (GoMap.keys rest).filter (fun k => GoMap.get? ((k0, v0) :: rest) k = some b) =
        (GoMap.keys rest).filter (fun k => GoMap.get? rest k = some b) := by
      apply List.filter_congr
      intro k hk
      have : ¬ k0 = k := by
        intro e; subst e; exact hk0 hk
      simp [GoMap.get?, this]
    have ih' := ih hwf'
    simp only [GoMap.values, GoMap.keys] at ih' hrest ⊢
    simp only [List.map_cons, List.filter_cons, hrest]
    by_cases hv : v0 = b
    · subst hv
      simp [GoMap.get?, hb, ih']
    · by_cases ha : v0.Author = username
      · simp [GoMap.get?, ha, hv, ih', List.count_cons]
      · simp [GoMap.get?, ha, hv, ih']

theorem repository_methods_keep_synced (repo : InMemoryUserRepository)
    (hw : repo.file.writable = true) (hs : Synced repo) :
    (∀ user : User, Synced (repo.CreateUser user).1) ∧
    (∀ user : User, Synced (repo.UpdateUser user).1) ∧
    (∀ username : String, Synced (repo.DeleteUser username).1) ∧
    (∀ username : String, Synced (repo.ApproveAdmin username).1) ∧
    (∀ username : String, Synced (repo.RejectAdmin username).1) ∧
    (∀ (now : Int) (username title text : String),
      Synced (repo.CreateBlog now username title text).1) ∧
    (∀ username blogID : String, Synced (repo.DeleteBlog username blogID).1) := by
  have hsave : ∀ r : InMemoryUserRepository, r.file.writable = true → Synced r.saveToFile := by
    intro r hr
    simp [Synced, saveToFile, hr]
  refine ⟨?_, ?_, ?_, ?_, ?_, ?_, ?_⟩
  · intro user
    unfold CreateUser
    split
    · exact hs
    · exact hsave _ hw
  · intro user
    exact hsave _ hw
  · intro username
    unfold DeleteUser
    split
    · exact hs
    · exact hsave _ hw
  · intro username
    unfold ApproveAdmin
    split
    · exact hs
    · split
      · exact hs
      · exact hsave _ hw
  · intro username
    unfold RejectAdmin
    split
    · exact hs
    · split
      · exact hs
      · exact hsave _ hw
  · intro now username title text
    exact hsave _ hw
  · intro username blogID
    unfold DeleteBlog
    split
    · exact hs
    · split
      · exact hs
      · exact hsave _ hw

end InMemoryUserRepository

open InMemoryUserRepository

/-! ## Lemmas on the session: every loop iteration consumes a line -/

theorem ReadString_lines (r : Reader) : r.ReadString.2.lines.length ≤ r.lines.length := by
  unfold Reader.ReadString
  split <;> simp_all

theorem readTrimmed_reader (s : Session) : s.readTrimmed.2.reader = s.reader.ReadString.2 := rfl

theorem write_reader (s : Session) (str : String) : (s.write str).reader = s.reader := rfl

theorem viewProfileCase_lines (u : String) (a : Bool) (s : Session) :
    (viewProfileCase u a s).1.reader.lines.length ≤ s.reader.lines.length := by
  unfold viewProfileCase
  simp only []
  split <;> simp only [readTrimmed_reader, write_reader] <;>
    repeat (first | exact Nat.le_refl _ | refine Nat.le_trans (ReadString_lines _) ?_)

theorem myBlogsCase_lines (env : Env) (u : String) (a : Bool) (s : Session) :
    (myBlogsCase env u a s).1.reader.lines.length ≤ s.reader.lines.length := by
  unfold myBlogsCase
  simp only []
  repeat' split
  all_goals simp only [readTrimmed_reader, write_reader]
  all_goals repeat (first | exact Nat.le_refl _ | refine Nat.le_trans (ReadString_lines _) ?_)

theorem listPendingCase_lines (a : Bool) (s : Session) :
    (listPendingCase a s).1.reader.lines.length ≤ s.reader.lines.length := by
  unfold listPendingCase
  simp only []
  repeat' split
  all_goals simp only [readTrimmed_reader, write_reader]
  all_goals repeat (first | exact Nat.le_refl _ | refine Nat.le_trans (ReadString_lines _) ?_)

theorem authStep_lines (env : Env) (u : String) (a : Bool) (command : String) (s : Session) :
    (authStep env u a command s).1.reader.lines.length ≤ s.reader.lines.length := by
  unfold authStep
  simp only []
  split
  · exact Nat.le_refl _
  · split_ifs
    · exact Nat.le_refl _
    · exact viewProfileCase_lines u a s
    · exact myBlogsCase_lines env u a s
    · exact Nat.le_refl _
    · exact listPendingCase_lines a s
    · exact Nat.le_refl _
    · exact Nat.le_refl _
    · exact Nat.le_refl _

theorem unauthStep_reader (env : Env) (command : String) (s : Session) :
    (unauthStep env command s).1.reader = s.reader := by
  unfold unauthStep
  simp only []
  repeat' split
  all_goals rfl

theorem authLoop_isSome (env : Env) (u : String) (a : Bool) (fuel : Nat) (s : Session)
    (h : s.reader.lines.length < fuel) : (authLoop env u a fuel s).isSome = true := by
  induction fuel generalizing s with
  | zero => omega
  | succ fuel ih =>
    unfold authLoop
    cases hl : s.reader.lines with
    | nil => simp [Reader.ReadString, hl]
    | cons l ls =>
      simp only [Reader.ReadString, hl]
      have hstep := authStep_lines env u a (l ++ "\n")
        { s with reader := { s.reader with lines := ls } }
      split
      · apply ih
        rename_i s' heq
        rw [heq] at hstep
        simp only [hl, List.length_cons] at h hstep
        omega
      · rfl

theorem unauthLoop_isSome (env : Env) (fuel : Nat) (s : Session)
    (h : s.reader.lines.length < fuel) : (unauthLoop env fuel s).isSome = true := by
  induction fuel generalizing s with
  | zero => omega
  | succ fuel ih =>
    unfold unauthLoop
    cases hl : s.reader.lines with
    | nil => simp [Reader.ReadString, hl]
    | cons l ls =>
      simp only [Reader.ReadString, hl]
      have hstep := unauthStep_reader env (l ++ "\n")
        { s with reader := { s.reader with lines := ls } }
      split
      · apply ih
        rename_i s' heq
        rw [heq] at hstep
        simp only [hl, List.length_cons] at h hstep
        simp only [hstep]
        omega
      · rfl
      · apply authLoop_isSome
        rename_i s' u a heq
        rw [heq] at hstep
        simp only [hl, List.length_cons] at h hstep
        simp only [hstep]
        omega

/-- The fuel `handleConnection` gives its loops is enough: it always returns. -/
theorem handleConnection_isSome (env : Env) (s : Session) :
    (handleConnection env s).isSome = true := by
  unfold handleConnection
  apply unauthLoop_isSome
  simp [write_reader]

/-! ## Lemmas on the store invariant and on reachable stores -/

namespace GoMap

theorem mem_set {V : Type} (m : GoMap V) (k : String) (v : V) (e : String × V)
    (h : e ∈ m.set k v) : e ∈ m ∨ e = (k, v) := by
  induction m with
  | nil =>
    simp [set] at h
    exact Or.inr h
  | cons e0 rest ih =>
    obtain ⟨k0, v0⟩ := e0
    by_cases h0 : k0 = k
    · simp [set, h0] at h
      rcases h with h | h
      · exact Or.inr h
      · exact Or.inl (List.mem_cons_of_mem _ h)
    · simp [set, h0] at h
      rcases h with h | h
      · exact Or.inl (by simp [h])
      · rcases ih h with h' | h'
        · exact Or.inl (List.mem_cons_of_mem _ h')
        · exact Or.inr h'

theorem mem_keys_set {V : Type} (m : GoMap V) (k : String) (v : V) (x : String)
    (h : x ∈ (m.set k v).keys) : x ∈ m.keys ∨ x = k := by
  simp only [keys, List.mem_map] at h ⊢
  obtain ⟨e, he, rfl⟩ := h
  rcases mem_set m k v e he with h' | h'
  · exact Or.inl ⟨e, h', rfl⟩
  · exact Or.inr (by rw [h'])

theorem WF_set {V : Type} (m : GoMap V) (k : String) (v : V) (h : m.WF) : (m.set k v).WF := by
  induction m with
  | nil => simp [set, WF, keys]
  | cons e0 rest ih =>
    obtain ⟨k0, v0⟩ := e0
    have h' : k0 ∉ keys rest ∧ WF rest := by
      simpa [WF, keys] using h
    by_cases h0 : k0 = k
    · subst h0
      simpa [set, WF, keys] using h
    · have hnot : k0 ∉ (set rest k v).keys := by
        intro hin
        rcases mem_keys_set rest k v k0 hin with hin' | hin'
        · exact h'.1 hin'
        · exact h0 hin'
      have hrec := ih h'.2
      simp only [set, h0, if_false, WF, keys, List.map_cons, List.nodup_cons]
      exact ⟨hnot, hrec⟩

theorem WF_delete {V : Type} (m : GoMap V) (k : String) (h : m.WF) : (m.delete k).WF := by
  unfold WF keys delete at *
  exact List.Nodup.sublist (List.Sublist.map _ (List.filter_sublist _)) h

theorem mem_delete {V : Type} (m : GoMap V) (k : String) (e : String × V)
    (h : e ∈ m.delete k) : e ∈ m :=
  List.mem_of_mem_filter h

end GoMap

theorem Inv_setUser (repo : InMemoryUserRepository) (user : User) (file : File)
    (h : Inv repo) :
    Inv { Users := repo.Users.set user.Username user, Blogs := repo.Blogs, file := file } := by
  obtain ⟨h1, h2, h3, h4⟩ := h
  refine ⟨GoMap.WF_set _ _ _ h1, h2, ?_, h4⟩
  intro e he
  rcases GoMap.mem_set _ _ _ e he with h' | h'
  · exact h3 e h'
  · rw [h']

theorem Inv_deleteUser (repo : InMemoryUserRepository) (username : String) (file : File)
    (h : Inv repo) :
    Inv { Users := repo.Users.delete username, Blogs := repo.Blogs, file := file } := by
  obtain ⟨h1, h2, h3, h4⟩ := h
  exact ⟨GoMap.WF_delete _ _ h1, h2, fun e he => h3 e (GoMap.mem_delete _ _ e he), h4⟩

theorem Inv_setBlog (repo : InMemoryUserRepository) (blog : Blog) (file : File)
    (h : Inv repo) :
    Inv { Users := repo.Users, Blogs := repo.Blogs.set blog.ID blog, file := file } := by
  obtain ⟨h1, h2, h3, h4⟩ := h
  refine ⟨h1, GoMap.WF_set _ _ _ h2, h3, ?_⟩
  intro e he
  rcases GoMap.mem_set _ _ _ e he with h' | h'
  · exact h4 e h'
  · rw [h']

theorem Inv_deleteBlog (repo : InMemoryUserRepository) (blogID : String) (file : File)
    (h : Inv repo) :
    Inv { Users := repo.Users, Blogs := repo.Blogs.delete blogID, file := file } := by
  obtain ⟨h1, h2, h3, h4⟩ := h
  exact ⟨h1, GoMap.WF_delete _ _ h2, h3, fun e he => h4 e (GoMap.mem_delete _ _ e he)⟩

theorem Inv_file (repo : InMemoryUserRepository) (file : File) (h : Inv repo) :
    Inv { repo with file := file } := h

theorem Inv_saveToFile (repo : InMemoryUserRepository) (h : Inv repo) : Inv repo.saveToFile := by
  unfold saveToFile
  split
  · exact h
  · exact h

theorem Inv_get_user (repo : InMemoryUserRepository) (h : Inv repo) (k : String) (user : User)
    (hk : repo.Users.get? k = some user) : user.Username = k :=
  h.2.2.1 (k, user) (GoMap.mem_of_get? _ k user hk)

theorem Inv_get_blog (repo : InMemoryUserRepository) (h : Inv repo) (k : String) (blog : Blog)
    (hk : repo.Blogs.get? k = some blog) : blog.ID = k :=
  h.2.2.2 (k, blog) (GoMap.mem_of_get? _ k blog hk)

theorem Inv_CreateUser (repo : InMemoryUserRepository) (user : User) (h : Inv repo) :
    Inv (repo.CreateUser user).1 := by
  unfold CreateUser
  split
  · exact h
  · exact Inv_saveToFile _ (Inv_setUser repo user repo.file h)

theorem Inv_UpdateUser (repo : InMemoryUserRepository) (user : User) (h : Inv repo) :
    Inv (repo.UpdateUser user).1 :=
  Inv_saveToFile _ (Inv_setUser repo user repo.file h)

theorem Inv_DeleteUser (repo : InMemoryUserRepository) (username : String) (h : Inv repo) :
    Inv (repo.DeleteUser username).1 := by
  unfold DeleteUser
  split
  · exact h
  · exact Inv_saveToFile _ (Inv_deleteUser repo username repo.file h)

theorem Inv_ApproveAdmin (repo : InMemoryUserRepository) (username : String) (h : Inv repo) :
    Inv (repo.ApproveAdmin username).1 := by
  unfold ApproveAdmin
  split
  · exact h
  · rename_i user hu
    split
    · exact h
    · have hname : user.Username = username := Inv_get_user repo h username user hu
      subst hname
      exact Inv_saveToFile _ (Inv_setUser repo { user with Status := "approved" } repo.file h)

theorem Inv_RejectAdmin (repo : InMemoryUserRepository) (username : String) (h : Inv repo) :
    Inv (repo.RejectAdmin username).1 := by
  unfold RejectAdmin
  split
  · exact h
  · split
    · exact h
    · exact Inv_saveToFile _ (Inv_deleteUser repo username repo.file h)

theorem Inv_CreateBlog (repo : InMemoryUserRepository) (now : Int)
    (username title text : String) (h : Inv repo) :
    Inv (repo.CreateBlog now username title text).1 :=
  Inv_saveToFile _
    (Inv_setBlog repo
      { ID := generateBlogID now, Author := username, Title := title, Text := text }
      repo.file h)

theorem Inv_DeleteBlog (repo : InMemoryUserRepository) (username blogID : String)
    (h : Inv repo) : Inv (repo.DeleteBlog username blogID).1 := by
  unfold DeleteBlog
  split
  · exact h
  · split
    · exact h
    · exact Inv_saveToFile _ (Inv_deleteBlog repo blogID repo.file h)

theorem Inv_ApplyForAdmin (repo : InMemoryUserRepository) (username : String) (h : Inv repo) :
    Inv (UserService.ApplyForAdmin repo username).1 := by
  unfold UserService.ApplyForAdmin
  split
  · exact h
  · rename_i user hu
    split
    · exact h
    · have hname : user.Username = username := Inv_get_user repo h username user hu
      subst hname
      exact Inv_setUser repo { user with Status := "pending", Role := "admin" } repo.file h

theorem Closed_Inv : Closed Inv :=
  { CreateUser := Inv_CreateUser, UpdateUser := Inv_UpdateUser, DeleteUser := Inv_DeleteUser,
    ApproveAdmin := Inv_ApproveAdmin, RejectAdmin := Inv_RejectAdmin,
    CreateBlog := Inv_CreateBlog, DeleteBlog := Inv_DeleteBlog,
    ApplyForAdmin := Inv_ApplyForAdmin }

theorem Closed_Register {P : InMemoryUserRepository → Prop} (hP : Closed P) (bc : Bcrypt)
    (repo : InMemoryUserRepository) (username password role status : String) (h : P repo) :
    P (UserController.Register bc repo username password role status).1 := by
  have hs : P (UserService.RegisterUser bc repo username password role status).1 := by
    unfold UserService.RegisterUser
    split
    · exact h
    · exact hP.CreateUser _ _ h
  unfold UserController.Register
  split <;> (rename_i heq; rw [heq] at hs; exact hs)

theorem Closed_UpdateProfile {P : InMemoryUserRepository → Prop} (hP : Closed P)
    (repo : InMemoryUserRepository)
    (username name surname favAnimal favMovie yearOfBirth city footballTeam : String)
    (h : P repo) :
    P (UserController.UpdateProfile repo username name surname favAnimal favMovie yearOfBirth
      city footballTeam).1 := by
  have hs : P (UserService.UpdateUserProfile repo username name surname favAnimal favMovie
      yearOfBirth city footballTeam).1 := by
    unfold UserService.UpdateUserProfile
    split
    · exact h
    · exact hP.UpdateUser _ _ h
  unfold UserController.UpdateProfile
  split <;> (rename_i heq; rw [heq] at hs; exact hs)

theorem Closed_PostBlog {P : InMemoryUserRepository → Prop} (hP : Closed P)
    (repo : InMemoryUserRepository) (now : Int) (username title text : String) (h : P repo) :
    P (UserController.PostBlog repo now username title text).1 := by
  have hs : P (UserService.CreateBlog repo now username title text).1 := by
    unfold UserService.CreateBlog
    split
    · exact h
    · exact hP.CreateBlog _ _ _ _ _ h
  unfold UserController.PostBlog
  split <;> (rename_i heq; rw [heq] at hs; exact hs)

theorem Closed_ctlDeleteBlog {P : InMemoryUserRepository → Prop} (hP : Closed P)
    (repo : InMemoryUserRepository) (username blogID : String) (h : P repo) :
    P (UserController.DeleteBlog repo username blogID).1 := by
  have hs : P (UserService.DeleteBlog repo username blogID).1 := hP.DeleteBlog _ _ _ h
  unfold UserController.DeleteBlog
  split <;> (rename_i heq; rw [heq] at hs; exact hs)

theorem Closed_ctlApplyForAdmin {P : InMemoryUserRepository → Prop} (hP : Closed P)
    (repo : InMemoryUserRepository) (username : String) (h : P repo) :
    P (UserController.ApplyForAdmin repo username).1 := by
  have hs : P (UserService.ApplyForAdmin repo username).1 := hP.ApplyForAdmin _ _ h
  unfold UserController.ApplyForAdmin
  split <;> (rename_i heq; rw [heq] at hs; exact hs)

theorem Closed_ctlApproveAdmin {P : InMemoryUserRepository → Prop} (hP : Closed P)
    (repo : InMemoryUserRepository) (username : String) (h : P repo) :
    P (UserController.ApproveAdmin repo username).1 := by
  have hs : P (UserService.ApproveAdminRequest repo username).1 := hP.ApproveAdmin _ _ h
  unfold UserController.ApproveAdmin
  split <;> (rename_i heq; rw [heq] at hs; exact hs)

theorem Closed_ctlRejectAdmin {P : InMemoryUserRepository → Prop} (hP : Closed P)
    (repo : InMemoryUserRepository) (username : String) (h : P repo) :
    P (UserController.RejectAdmin repo username).1 := by
  have hs : P (UserService.RejectAdminRequest repo username).1 := hP.RejectAdmin _ _ h
  unfold UserController.RejectAdmin
  split <;> (rename_i heq; rw [heq] at hs; exact hs)

theorem readTrimmed_repo (s : Session) : s.readTrimmed.2.repo = s.repo := rfl

theorem write_repo (s : Session) (str : String) : (s.write str).repo = s.repo := rfl

theorem Closed_viewProfileCase {P : InMemoryUserRepository → Prop} (hP : Closed P)
    (loggedInUser : String) (isAdmin : Bool) (s : Session) (h : P s.repo) :
    P (viewProfileCase loggedInUser isAdmin s).1.repo := by
  unfold viewProfileCase
  simp only []
  split
  · simp only [write_repo, readTrimmed_repo]
    exact Closed_UpdateProfile hP _ _ _ _ _ _ _ _ _ h
  · exact h

theorem Closed_myBlogsCase {P : InMemoryUserRepository → Prop} (hP : Closed P) (env : Env)
    (loggedInUser : String) (isAdmin : Bool) (s : Session) (h : P s.repo) :
    P (myBlogsCase env loggedInUser isAdmin s).1.repo := by
  unfold myBlogsCase
  simp only []
  repeat' split
  all_goals simp only [write_repo, readTrimmed_repo]
  all_goals first
    | exact h
    | exact Closed_PostBlog hP _ _ _ _ _ h
    | exact Closed_ctlDeleteBlog hP _ _ _ h

theorem Closed_listPendingCase {P : InMemoryUserRepository → Prop} (hP : Closed P)
    (isAdmin : Bool) (s : Session) (h : P s.repo) :
    P (listPendingCase isAdmin s).1.repo := by
  unfold listPendingCase
  simp only []
  repeat' split
  all_goals simp only [write_repo, readTrimmed_repo]
  all_goals first
    | exact h
    | exact Closed_ctlApproveAdmin hP _ _ h
    | exact Closed_ctlRejectAdmin hP _ _ h

theorem Closed_authStep {P : InMemoryUserRepository → Prop} (hP : Closed P) (env : Env)
    (loggedInUser : String) (isAdmin : Bool) (command : String) (s : Session)
    (h : P s.repo) : P (authStep env loggedInUser isAdmin command s).1.repo := by
  unfold authStep
  simp only []
  split
  · exact h
  · split_ifs
    · exact h
    · exact Closed_viewProfileCase hP _ _ s h
    · exact Closed_myBlogsCase hP env _ _ s h
    · exact Closed_ctlApplyForAdmin hP _ _ h
    · exact Closed_listPendingCase hP _ s h
    · exact h
    · exact h
    · exact h

theorem Closed_unauthStep {P : InMemoryUserRepository → Prop} (hP : Closed P) (env : Env)
    (command : String) (s : Session) (h : P s.repo) :
    P (unauthStep env command s).1.repo := by
  unfold unauthStep
  simp only []
  repeat' split
  all_goals first
    | exact h
    | exact Closed_Register hP _ _ _ _ _ _ h

theorem Reachable_Inv (repo : InMemoryUserRepository) (h : Reachable repo) : Inv repo := by
  induction h with
  | empty file => exact ⟨List.nodup_nil, List.nodup_nil, by simp, by simp⟩
  | CreateUser user _ ih => exact Inv_CreateUser _ _ ih
  | UpdateUser user _ ih => exact Inv_UpdateUser _ _ ih
  | DeleteUser username _ ih => exact Inv_DeleteUser _ _ ih
  | ApproveAdmin username _ ih => exact Inv_ApproveAdmin _ _ ih
  | RejectAdmin username _ ih => exact Inv_RejectAdmin _ _ ih
  | CreateBlog now username title text _ ih => exact Inv_CreateBlog _ _ _ _ _ ih
  | DeleteBlog username blogID _ ih => exact Inv_DeleteBlog _ _ _ ih
  | ApplyForAdmin username _ ih => exact Inv_ApplyForAdmin _ _ ih
  | unauthStep env command s _ ih => exact Closed_unauthStep Closed_Inv env command s ih
  | authStep env u a command s _ ih => exact Closed_authStep Closed_Inv env u a command s ih

/-! ## Lemmas on listings, blank lines and sub-dialogue reads -/

theorem dropWhile_all {α : Type} (p : α → Bool) (l : List α) (h : ∀ a ∈ l, p a = true) :
    l.dropWhile p = [] := by
  induction l with
  | nil => rfl
  | cons a l ih =>
    have ha := h a (List.mem_cons_self _ _)
    simp only [List.dropWhile, ha]
    exact ih (fun b hb => h b (List.mem_cons_of_mem _ hb))

theorem Fields_blank (command : String) (h : ∀ c ∈ command.data, isSpace c = true) :
    Fields (TrimSpace command) = [] := by
  unfold TrimSpace Fields
  rw [dropWhile_all isSpace command.data h]
  rfl

theorem count_values_filter_of {V : Type} [DecidableEq V] (m : GoMap V) (hwf : m.WF)
    (p : V → Prop) [DecidablePred p] (v : V) (hv : p v) :
    ((m.values.filter (fun x => decide (p x))).count v) =
      (m.keys.filter (fun k => decide (m.get? k = some v))).length := by
  induction m with
  | nil => simp [GoMap.values, GoMap.keys]
  | cons e rest ih =>
    obtain ⟨k0, v0⟩ := e
    have hwf' : GoMap.WF rest := by
      simp [GoMap.WF, GoMap.keys] at hwf ⊢
      exact hwf.2
    have hk0 : k0 ∉ GoMap.keys rest := by
      simp [GoMap.WF, GoMap.keys] at hwf ⊢
      exact hwf.1
    have hrest : (GoMap.keys rest).filter
          (fun k => decide (GoMap.get? ((k0, v0) :: rest) k = some v)) =
        (GoMap.keys rest).filter (fun k => decide (GoMap.get? rest k = some v)) := by
      apply List.filter_congr
      intro k hk
      have : ¬ k0 = k := by
        intro e; subst e; exact hk0 hk
      simp [GoMap.get?, this]
    have ih' := ih hwf'
    simp only [GoMap.values, GoMap.keys] at ih' hrest ⊢
    simp only [List.map_cons, List.filter_cons, hrest]
    by_cases hv0 : v0 = v
    · subst hv0
      simp [GoMap.get?, hv, ih']
    · by_cases ha : p v0
      · simp [GoMap.get?, ha, hv0, ih', List.count_cons]
      · simp [GoMap.get?, ha, hv0, ih']

theorem mem_values_iff {V : Type} (m : GoMap V) (hwf : m.WF) (v : V) :
    v ∈ m.values ↔ ∃ k : String, m.get? k = some v := by
  constructor
  · intro hv
    simp only [GoMap.values, List.mem_map] at hv
    obtain ⟨⟨k, v'⟩, hkv, rfl⟩ := hv
    exact ⟨k, GoMap.get?_of_mem _ hwf k v' hkv⟩
  · rintro ⟨k, hk⟩
    simp only [GoMap.values, List.mem_map]
    exact ⟨(k, v), GoMap.mem_of_get? _ k v hk, rfl⟩

theorem keys_filter_eq_length_one {V : Type} [DecidableEq V] (m : GoMap V) (hwf : m.WF) (k : String) (v : V)
    (hk : m.get? k = some v) (huniq : ∀ k' : String, m.get? k' = some v → k' = k) :
    (m.keys.filter (fun k' => decide (m.get? k' = some v))).length = 1 := by
  have hfilter : m.keys.filter (fun k' => decide (m.get? k' = some v)) =
      m.keys.filter (fun k' => decide (k' = k)) := by
    apply List.filter_congr
    intro k' _
    by_cases hk' : k' = k
    · simp [hk', hk]
    · have : ¬ m.get? k' = some v := fun h => hk' (huniq k' h)
      simp [hk', this]
  rw [hfilter]
  have hin : k ∈ m.keys := by
    by_contra hnot
    have := (GoMap.get?_eq_none_iff m k).mpr hnot
    rw [hk] at this
    cases this
  have hc : m.keys.count k = 1 := List.count_eq_one_of_mem hwf hin
  have hlen : (m.keys.filter (fun k' => decide (k' = k))).length = m.keys.count k := by
    rw [List.count, List.countP_eq_length_filter]
    congr 1
  rw [hlen, hc]

theorem GetPendingAdmins_eq_filter (repo : InMemoryUserRepository) :
    repo.GetPendingAdmins =
      repo.Users.values.filter
        (fun user => decide (user.Status = "pending" ∧ user.Role = "admin")) := by
  unfold GetPendingAdmins
  rw [foldl_append_filter (fun user : User => user.Status = "pending" ∧ user.Role = "admin")]
  simp

theorem readTrimmed_cons (s : Session) (l : String) (ls : List String)
    (h : s.reader.lines = l :: ls) :
    s.readTrimmed = (TrimSpace (l ++ "\n"), { s with reader := { s.reader with lines := ls } }) := by
  simp [Session.readTrimmed, Reader.ReadString, h]

theorem mem_GetBlogsByUser (repo : InMemoryUserRepository) (hwf : repo.Blogs.WF)
    (username : String) (b : Blog) :
    b ∈ repo.GetBlogsByUser username ↔
      (∃ k : String, repo.Blogs.get? k = some b) ∧ b.Author = username := by
  rw [GetBlogsByUser_eq_filter]
  simp only [List.mem_filter, decide_eq_true_eq]
  rw [mem_values_iff _ hwf]

theorem CreateBlog_fresh (repo : InMemoryUserRepository) (now : Int)
    (username title text : String) (hfresh : repo.Blogs.get? (generateBlogID now) = none) :
    (repo.CreateBlog now username title text).1.Blogs.length = repo.Blogs.length + 1 ∧
    (∀ (k : String) (b : Blog), repo.Blogs.get? k = some b →
      (repo.CreateBlog now username title text).1.Blogs.get? k = some b) := by
  have hlen : ∀ (m : GoMap Blog) (k : String) (v : Blog), m.get? k = none →
      (m.set k v).length = m.length + 1 := by
    intro m k v
    induction m with
    | nil => intro _; rfl
    | cons e rest ih =>
      obtain ⟨k0, v0⟩ := e
      intro h
      by_cases h0 : k0 = k
      · simp [GoMap.get?, h0] at h
      · simp [GoMap.get?, h0] at h
        simp [GoMap.set, h0, ih h]
  refine ⟨?_, ?_⟩
  · simp only [CreateBlog, saveToFile_Blogs]
    exact hlen _ _ _ hfresh
  · intro k b hk
    simp only [CreateBlog, saveToFile_Blogs, GoMap.get?_set]
    have hne : ¬ k = generateBlogID now := by
      intro e
      rw [e, hfresh] at hk
      cases hk
    simp [hne, hk]

theorem GetAllUsers_eq_values (repo : InMemoryUserRepository) :
    repo.GetAllUsers = repo.Users.values := by
  have h : ∀ (l acc : List User), l.foldl (fun users user => users ++ [user]) acc = acc ++ l := by
    intro l
    induction l with
    | nil => intro acc; simp
    | cons a l ih => intro acc; simp [List.foldl, ih]
  unfold GetAllUsers
  rw [h]
  simp

/-! ## Lemmas on several connections sharing the repository -/

theorem UpdateProfile_repo (repo : InMemoryUserRepository)
    (username name surname favAnimal favMovie yearOfBirth city footballTeam : String) :
    (UserController.UpdateProfile repo username name surname favAnimal favMovie yearOfBirth
      city footballTeam).1 =
    (UserService.UpdateUserProfile repo username name surname favAnimal favMovie yearOfBirth
      city footballTeam).1 := by
  unfold UserController.UpdateProfile
  split <;> (rename_i heq; rw [heq])

theorem NoApproved_get (repo : InMemoryUserRepository) (h : NoApproved repo) (k : String)
    (user : User) (hk : repo.Users.get? k = some user) : user.Status ≠ "approved" :=
  h (k, user) (GoMap.mem_of_get? _ k user hk)

theorem NoApproved_set (repo : InMemoryUserRepository) (k : String) (user : User)
    (file : File) (h : NoApproved repo) (hu : user.Status ≠ "approved") :
    NoApproved { Users := repo.Users.set k user, Blogs := repo.Blogs, file := file } := by
  intro e he
  rcases GoMap.mem_set _ _ _ e he with h' | h'
  · exact h e h'
  · rw [h']; exact hu

theorem NoApproved_saveToFile (repo : InMemoryUserRepository) (h : NoApproved repo) :
    NoApproved repo.saveToFile := by
  unfold saveToFile
  split
  · exact h
  · exact h

theorem NoApproved_CreateUser (repo : InMemoryUserRepository) (user : User)
    (h : NoApproved repo) (hu : user.Status ≠ "approved") :
    NoApproved (repo.CreateUser user).1 := by
  unfold CreateUser
  split
  · exact h
  · exact NoApproved_saveToFile _ (NoApproved_set repo _ _ repo.file h hu)

theorem NoApproved_Register (bc : Bcrypt) (repo : InMemoryUserRepository)
    (username password : String) (h : NoApproved repo) :
    NoApproved (UserController.Register bc repo username password "user" "pending").1 := by
  have hs : NoApproved (UserService.RegisterUser bc repo username password "user" "pending").1 := by
    unfold UserService.RegisterUser
    split
    · exact h
    · exact NoApproved_CreateUser repo _ h (by simp)
  unfold UserController.Register
  split <;> (rename_i heq; rw [heq] at hs; exact hs)

theorem NoApproved_UpdateProfile (repo : InMemoryUserRepository)
    (username name surname favAnimal favMovie yearOfBirth city footballTeam : String)
    (h : NoApproved repo) :
    NoApproved (UserController.UpdateProfile repo username name surname favAnimal favMovie
      yearOfBirth city footballTeam).1 := by
  rw [UpdateProfile_repo]
  unfold UserService.UpdateUserProfile FindUserByUsername
  cases hu : repo.Users.get? username with
  | none => exact h
  | some user =>
    exact NoApproved_saveToFile _
      (NoApproved_set repo _ _ repo.file h (NoApproved_get repo h username user hu))

theorem NoApproved_PostBlog (repo : InMemoryUserRepository) (now : Int)
    (username title text : String) (h : NoApproved repo) :
    NoApproved (UserController.PostBlog repo now username title text).1 := by
  have hs : NoApproved (UserService.CreateBlog repo now username title text).1 := by
    unfold UserService.CreateBlog
    split
    · exact h
    · exact NoApproved_saveToFile _ h
  unfold UserController.PostBlog
  split <;> (rename_i heq; rw [heq] at hs; exact hs)

theorem NoApproved_ctlDeleteBlog (repo : InMemoryUserRepository) (username blogID : String)
    (h : NoApproved repo) : NoApproved (UserController.DeleteBlog repo username blogID).1 := by
  have hs : NoApproved (UserService.DeleteBlog repo username blogID).1 := by
    unfold UserService.DeleteBlog DeleteBlog
    split
    · exact h
    · split
      · exact h
      · exact NoApproved_saveToFile _ h
  unfold UserController.DeleteBlog
  split <;> (rename_i heq; rw [heq] at hs; exact hs)

theorem NoApproved_ctlApplyForAdmin (repo : InMemoryUserRepository) (username : String)
    (h : NoApproved repo) : NoApproved (UserController.ApplyForAdmin repo username).1 := by
  have hs : NoApproved (UserService.ApplyForAdmin repo username).1 := by
    unfold UserService.ApplyForAdmin
    split
    · exact h
    · split
      · exact h
      · exact NoApproved_set repo _ _ repo.file h (by simp)
  unfold UserController.ApplyForAdmin
  split <;> (rename_i heq; rw [heq] at hs; exact hs)

theorem NoApproved_viewProfileCase (loggedInUser : String) (isAdmin : Bool) (s : Session)
    (h : NoApproved s.repo) : NoApproved (viewProfileCase loggedInUser isAdmin s).1.repo := by
  unfold viewProfileCase
  simp only []
  split
  · simp only [write_repo, readTrimmed_repo]
    exact NoApproved_UpdateProfile _ _ _ _ _ _ _ _ _ h
  · exact h

theorem NoApproved_myBlogsCase (env : Env) (loggedInUser : String) (isAdmin : Bool)
    (s : Session) (h : NoApproved s.repo) :
    NoApproved (myBlogsCase env loggedInUser isAdmin s).1.repo := by
  unfold myBlogsCase
  simp only []
  repeat' split
  all_goals simp only [write_repo, readTrimmed_repo]
  all_goals first
    | exact h
    | exact NoApproved_PostBlog _ _ _ _ _ h
    | exact NoApproved_ctlDeleteBlog _ _ _ h

theorem NoApproved_authStep (env : Env) (loggedInUser command : String) (s : Session)
    (h : NoApproved s.repo) :
    NoApproved (authStep env loggedInUser false command s).1.repo := by
  unfold authStep
  simp only []
  split
  · exact h
  · split_ifs
    · exact h
    · exact NoApproved_viewProfileCase _ _ s h
    · exact NoApproved_myBlogsCase env _ _ s h
    · exact NoApproved_ctlApplyForAdmin _ _ h
    · simpa [listPendingCase] using h
    · exact h
    · exact h
    · exact h

theorem NoApproved_Login (bc : Bcrypt) (repo : InMemoryUserRepository)
    (username password : String) (h : NoApproved repo) :
    (UserController.Login bc repo username password).2.1 = false := by
  unfold UserController.Login UserService.LoginUser FindUserByUsername
  cases hu : repo.Users.get? username with
  | none => rfl
  | some user =>
    have hs := NoApproved_get repo h username user hu
    cases hv : bc.CompareHashAndPassword user.Password password <;> simp [hv, hs]

theorem NoApproved_unauthStep (env : Env) (command : String) (s : Session)
    (h : NoApproved s.repo) :
    NoApproved (unauthStep env command s).1.repo ∧
    ∀ (loggedInUser : String) (isAdmin : Bool),
      (unauthStep env command s).2 = Flow.login loggedInUser isAdmin → isAdmin = false := by
  unfold unauthStep
  simp only []
  split
  · exact ⟨h, by intro u a e; cases e⟩
  · split_ifs
    · split
      · exact ⟨NoApproved_Register _ _ _ _ h, by intro u a e; cases e⟩
      · exact ⟨h, by intro u a e; cases e⟩
    · split
      · rename_i username password _
        split
        · exact ⟨h, by intro u a e; cases e⟩
        · rename_i loggedInUser isAdmin heq
          refine ⟨by split <;> exact h, ?_⟩
          intro u a e
          have hflag := NoApproved_Login env.bcrypt s.repo username password h
          rw [heq] at hflag
          simp only [Flow.login.injEq] at e
          rw [← e.2]
          exact hflag
      · exact ⟨h, by intro u a e; cases e⟩
    · exact ⟨h, by intro u a e; cases e⟩
    · exact ⟨h, by intro u a e; cases e⟩

theorem serve_keeps (env : Env) (repo : InMemoryUserRepository) (ticks : Nat) (c : Client)
    (h : NoApproved repo) (hc : ∀ loggedInUser : String, c.phase ≠ Phase.auth loggedInUser true) :
    NoApproved (c.serve env repo ticks).1.1 ∧
    ∀ loggedInUser : String, (c.serve env repo ticks).2.phase ≠ Phase.auth loggedInUser true := by
  unfold Client.serve
  split
  · exact ⟨h, hc⟩
  · split
    · exact ⟨h, by intro u e; cases e⟩
    · rename_i command r _
      have hstep := NoApproved_unauthStep env command
        { repo := repo, ticks := ticks, reader := r, out := c.out } h
      split
      · rename_i s heq
        rw [heq] at hstep
        exact ⟨hstep.1, by intro u e; cases e⟩
      · rename_i s heq
        rw [heq] at hstep
        exact ⟨hstep.1, by intro u e; cases e⟩
      · rename_i s u a heq
        rw [heq] at hstep
        refine ⟨hstep.1, ?_⟩
        intro u' e
        simp only [Phase.auth.injEq] at e
        have := hstep.2 u a rfl
        rw [this] at e
        exact absurd e.2 (by decide)
  · rename_i u a hphase
    have ha : a = false := by
      cases a with
      | false => rfl
      | true => exact absurd hphase (hc u)
    subst ha
    split
    · exact ⟨h, by intro u e; cases e⟩
    · rename_i command r _
      have hstep := NoApproved_authStep env u command
        { repo := repo, ticks := ticks, reader := r, out := c.out } h
      split
      · rename_i s heq
        rw [heq] at hstep
        exact ⟨hstep, by intro u' e; cases e⟩
      · rename_i s f _ heq
        rw [heq] at hstep
        exact ⟨hstep, by intro u' e; cases e⟩

theorem step_keeps (env : Env) (sv : Server) (i : Nat)
    (h : NoApproved sv.repo) (hc : NoAdminClient sv.clients) :
    NoApproved (sv.step env i).repo ∧ NoAdminClient (sv.step env i).clients := by
  unfold Server.step
  cases hget : sv.clients.get? i with
  | none => exact ⟨h, hc⟩
  | some c =>
    have hmem : c ∈ sv.clients := List.get?_mem hget
    have hk := serve_keeps env sv.repo sv.ticks c h (hc c hmem)
    refine ⟨hk.1, ?_⟩
    intro c' hc' u
    rcases List.mem_or_eq_of_mem_set hc' with h' | h'
    · exact hc c' h' u
    · rw [h']
      exact hk.2 u

theorem run_keeps (env : Env) (schedule : List Nat) (sv : Server)
    (h : NoApproved sv.repo) (hc : NoAdminClient sv.clients) :
    NoApproved (sv.run env schedule).repo ∧ NoAdminClient (sv.run env schedule).clients := by
  induction schedule generalizing sv with
  | nil => exact ⟨h, hc⟩
  | cons i rest ih =>
    have hs := step_keeps env sv i h hc
    exact ih (sv.step env i) hs.1 hs.2

theorem serveN_closed (env : Env) (n : Nat) (repo : InMemoryUserRepository) (ticks : Nat)
    (r : Reader) (out : List String) :
    Client.serveN env n repo ticks { phase := Phase.closed, reader := r, out := out } =
      ((repo, ticks), { phase := Phase.closed, reader := r, out := out }) := by
  induction n with
  | zero => rfl
  | succ n ih => simp [Client.serveN, Client.serve, ih]

theorem serveN_authLoop (env : Env) (u : String) (a : Bool) (fuel : Nat) (s s' : Session)
    (h : authLoop env u a fuel s = some s') :
    Client.serveN env fuel s.repo s.ticks { phase := Phase.auth u a, reader := s.reader, out := s.out } =
      ((s'.repo, s'.ticks), { phase := Phase.closed, reader := s'.reader, out := s'.out }) := by
  induction fuel generalizing s with
  | zero => simp [authLoop] at h
  | succ fuel ih =>
    obtain ⟨repo, ticks, reader, out⟩ := s
    unfold authLoop at h
    simp only [Client.serveN, Client.serve]
    rcases hr : reader.ReadString with ⟨⟨command, err⟩, r⟩
    rw [hr] at h
    cases err with
    | true =>
      simp only [Option.some.injEq] at h
      subst h
      simp only []
      exact serveN_closed env fuel repo ticks r out
    | false =>
      simp only [] at h ⊢
      rcases hstep : authStep env u a command
          { repo := repo, ticks := ticks, reader := r, out := out } with ⟨s1, flow⟩
      rw [hstep] at h
      cases flow with
      | next =>
        simp only [] at h ⊢
        exact ih s1 h
      | stop =>
        simp only [Option.some.injEq] at h
        subst h
        exact serveN_closed env fuel _ _ _ _
      | login u' a' =>
        simp only [Option.some.injEq] at h
        subst h
        exact serveN_closed env fuel _ _ _ _

theorem serveN_unauthLoop (env : Env) (fuel : Nat) (s s' : Session)
    (h : unauthLoop env fuel s = some s') :
    Client.serveN env fuel s.repo s.ticks { phase := Phase.unauth, reader := s.reader, out := s.out } =
      ((s'.repo, s'.ticks), { phase := Phase.closed, reader := s'.reader, out := s'.out }) := by
  induction fuel generalizing s with
  | zero => simp [unauthLoop] at h
  | succ fuel ih =>
    obtain ⟨repo, ticks, reader, out⟩ := s
    unfold unauthLoop at h
    simp only [Client.serveN, Client.serve]
    rcases hr : reader.ReadString with ⟨⟨command, err⟩, r⟩
    rw [hr] at h
    cases err with
    | true =>
      simp only [Option.some.injEq] at h
      subst h
      simp only []
      exact serveN_closed env fuel repo ticks r out
    | false =>
      simp only [] at h ⊢
      rcases hstep : unauthStep env command
          { repo := repo, ticks := ticks, reader := r, out := out } with ⟨s1, flow⟩
      rw [hstep] at h
      cases flow with
      | next =>
        simp only [] at h ⊢
        exact ih s1 h
      | stop =>
        simp only [Option.some.injEq] at h
        subst h
        exact serveN_closed env fuel _ _ _ _
      | login u' a' =>
        simp only [] at h ⊢
        exact serveN_authLoop env u' a' fuel s1 s' h

theorem serveN_handleConnection (env : Env) (s s' : Session)
    (h : handleConnection env s = some s') :
    Client.serveN env (s.reader.lines.length + 1) s.repo s.ticks
        { phase := Phase.unauth, reader := s.reader, out := s.out ++ welcome } =
      ((s'.repo, s'.ticks), { phase := Phase.closed, reader := s'.reader, out := s'.out }) := by
  unfold handleConnection at h
  have := serveN_unauthLoop env _ _ s' h
  simpa [Session.write, welcome] using this

/-! ## The claims -/

/-- C1 (amended): for every repository and every user whose `Username` is
already a key of `Users`, `CreateUser` returns the error "User already exists"
and returns the repository unchanged (users, blogs and snapshot file).
`RegisterUser` and the `reg` command give that same error whenever hashing the
password succeeds; when hashing fails they report the hashing error instead. In
both cases the repository is unchanged, so the stored record is the one of the
first registration. -/
theorem C1_existing_username_rejected (repo : InMemoryUserRepository) (user : User)
    (hkey : user.Username ∈ repo.Users.keys) :
    repo.CreateUser user = (repo, some "User already exists") ∧
    (∀ (bc : Bcrypt) (password role status hashedPassword : String),
      bc.GenerateFromPassword password = .ok hashedPassword →
      UserService.RegisterUser bc repo user.Username password role status =
        (repo, some "User already exists")) ∧
    (∀ (bc : Bcrypt) (password role status err : String),
      bc.GenerateFromPassword password = .error err →
      UserService.RegisterUser bc repo user.Username password role status =
        (repo, some ("Error hashing password: " ++ err))) ∧
    (∀ (env : Env) (s : Session) (command password hashedPassword : String),
      s.repo = repo →
      Fields (TrimSpace command) = ["reg", user.Username, password] →
      env.bcrypt.GenerateFromPassword password = .ok hashedPassword →
      unauthStep env command s = (s.write ("Error: User already exists" ++ "\n"), Flow.next)) ∧
    (∀ (env : Env) (s : Session) (command password err : String),
      s.repo = repo →
      Fields (TrimSpace command) = ["reg", user.Username, password] →
      env.bcrypt.GenerateFromPassword password = .error err →
      unauthStep env command s =
        (s.write ("Error: " ++ ("Error hashing password: " ++ err) ++ "\n"), Flow.next)) := by
  have hget : ∃ old, repo.Users.get? user.Username = some old := by
    cases hg : repo.Users.get? user.Username with
    | none => exact absurd hkey ((GoMap.get?_eq_none_iff _ _).mp hg)
    | some old => exact ⟨old, rfl⟩
  obtain ⟨old, hold⟩ := hget
  have hcreate : ∀ u : User, u.Username = user.Username →
      repo.CreateUser u = (repo, some "User already exists") := by
    intro u hu
    simp [InMemoryUserRepository.CreateUser, hu, hold]
  refine ⟨hcreate user rfl, ?_, ?_, ?_, ?_⟩
  · intro bc password role status hashedPassword hh
    simp only [UserService.RegisterUser, hh]
    exact hcreate _ rfl
  · intro bc password role status err hh
    simp only [UserService.RegisterUser, hh]
  · intro env s command password hashedPassword hs hc hh
    subst hs
    have hreg : UserService.RegisterUser env.bcrypt s.repo user.Username password "user" "pending"
        = (s.repo, some "User already exists") := by
      simp only [UserService.RegisterUser, hh]
      exact hcreate _ rfl
    simp [unauthStep, hc, UserController.Register, hreg]
  · intro env s command password err hs hc hh
    subst hs
    have hreg : UserService.RegisterUser env.bcrypt s.repo user.Username password "user" "pending"
        = (s.repo, some ("Error hashing password: " ++ err)) := by
      simp only [UserService.RegisterUser, hh]
    simp [unauthStep, hc, UserController.Register, hreg]

/-- Instance of C1 on the sample repository: `alice` is registered, creating her
again is refused and the repository stays as it is. -/
theorem C1_existing_username_rejected_witness :
    alice.Username ∈ sampleRepo.Users.keys ∧
    sampleRepo.CreateUser alice = (sampleRepo, some "User already exists") :=
  ⟨by decide, (C1_existing_username_rejected sampleRepo alice (by decide)).1⟩

/-- C1 as stated fails for `RegisterUser` and `reg`: with a bcrypt that refuses
passwords of more than 72 bytes, registering the existing user `alice` with a
password of 73 bytes returns the hashing error, not "User already exists". -/
theorem C1_register_existing_hash_failure :
    "alice" ∈ sampleRepo.Users.keys ∧
    UserService.RegisterUser bcrypt72 sampleRepo "alice" password73 "user" "pending" =
      (sampleRepo, some "Error hashing password: bcrypt: password length exceeds 72 bytes") ∧
    unauthStep env72 ("reg alice " ++ password73 ++ "\n") (sampleSession []) =
      ((sampleSession []).write
        "Error: Error hashing password: bcrypt: password length exceeds 72 bytes\n", Flow.next) ∧
    ¬ (∀ (bc : Bcrypt) (repo : InMemoryUserRepository) (user : User) (password role status : String),
        user.Username ∈ repo.Users.keys →
        (UserService.RegisterUser bc repo user.Username password role status).2 =
          some "User already exists") := by
  refine ⟨by decide, by decide, by decide, ?_⟩
  intro h
  exact absurd (h bcrypt72 sampleRepo alice password73 "user" "pending" (by decide)) (by decide)

/-- C2: a `log` command that fails because the username is absent and a `log`
command that fails because the stored hash does not verify the password write
the same text, "Invalid username or password. Please try again." followed by an
empty line; in both cases the loop continues in the not-logged-in state and the
repository is unchanged. -/
theorem C2_login_failures_indistinguishable (env : Env) (s1 s2 : Session)
    (c1 c2 u1 p1 u2 p2 : String) (stored : User)
    (hc1 : Fields (TrimSpace c1) = ["log", u1, p1])
    (hc2 : Fields (TrimSpace c2) = ["log", u2, p2])
    (habsent : s1.repo.Users.get? u1 = none)
    (hpresent : s2.repo.Users.get? u2 = some stored)
    (hwrong : env.bcrypt.CompareHashAndPassword stored.Password p2 = false) :
    unauthStep env c1 s1 =
      (s1.write "Invalid username or password. Please try again.\n\n", Flow.next) ∧
    unauthStep env c2 s2 =
      (s2.write "Invalid username or password. Please try again.\n\n", Flow.next) ∧
    (unauthStep env c1 s1).1.repo = s1.repo ∧ (unauthStep env c2 s2).1.repo = s2.repo := by
  have h1 : unauthStep env c1 s1 =
      (s1.write "Invalid username or password. Please try again.\n\n", Flow.next) := by
    simp [unauthStep, hc1, UserController.Login, UserService.LoginUser,
      InMemoryUserRepository.FindUserByUsername, habsent]
  have h2 : unauthStep env c2 s2 =
      (s2.write "Invalid username or password. Please try again.\n\n", Flow.next) := by
    simp [unauthStep, hc2, UserController.Login, UserService.LoginUser,
      InMemoryUserRepository.FindUserByUsername, hpresent, hwrong]
  refine ⟨h1, h2, ?_, ?_⟩
  · rw [h1]; rfl
  · rw [h2]; rfl

/-- Instance of C2: on the sample repository, `log carol pw` (no such user) and
`log alice nope` (wrong password) are answered alike. -/
theorem C2_login_failures_indistinguishable_witness :
    (sampleSession []).repo.Users.get? "carol" = none ∧
    (sampleSession []).repo.Users.get? "alice" = some alice ∧
    env72.bcrypt.CompareHashAndPassword alice.Password "nope" = false ∧
    unauthStep env72 "log carol pw\n" (sampleSession []) =
      unauthStep env72 "log alice nope\n" (sampleSession []) :=
  ⟨by decide, by decide, by decide,
    (C2_login_failures_indistinguishable env72 (sampleSession []) (sampleSession [])
      "log carol pw\n" "log alice nope\n" "carol" "pw" "alice" "nope" alice
      (by decide) (by decide) (by decide) (by decide) (by decide)).1.trans
    (C2_login_failures_indistinguishable env72 (sampleSession []) (sampleSession [])
      "log carol pw\n" "log alice nope\n" "carol" "pw" "alice" "nope" alice
      (by decide) (by decide) (by decide) (by decide) (by decide)).2.1.symm⟩

/-- C3: when `u` is not registered, hashing `p` gives `hashed` and `hashed`
verifies `p`: after the command `reg u p` the record of `u` has role "user" and
status "pending" (hash `hashed`, empty profile); `ApplyForAdmin u` and then
`ApproveAdmin u` both succeed and leave the same record with role "admin",
status "approved" and the same hash; and `Login u p` then succeeds with
`isAdmin = true`. -/
theorem C3_register_apply_approve_login (env : Env) (s : Session)
    (command u p hashed : String)
    (hc : Fields (TrimSpace command) = ["reg", u, p])
    (hnew : s.repo.Users.get? u = none)
    (hhash : env.bcrypt.GenerateFromPassword p = .ok hashed)
    (hverify : env.bcrypt.CompareHashAndPassword hashed p = true) :
    let registered := (unauthStep env command s).1.repo
    let applied := UserService.ApplyForAdmin registered u
    let approved := applied.1.ApproveAdmin u
    registered.Users.get? u = some (newUser u hashed "user" "pending") ∧
    applied.2 = none ∧ approved.2 = none ∧
    approved.1.Users.get? u = some (newUser u hashed "admin" "approved") ∧
    UserController.Login env.bcrypt approved.1 u p = (u, true, none) := by
  intro registered applied approved
  have h1 : registered.Users.get? u = some (newUser u hashed "user" "pending") := by
    show (unauthStep env command s).1.repo.Users.get? u = _
    simp [unauthStep, hc, UserController.Register, UserService.RegisterUser, hhash,
      InMemoryUserRepository.CreateUser, hnew, Session.write, saveToFile_Users,
      GoMap.get?_set, newUser]
  have happ : applied =
      ({ registered with Users := registered.Users.set u (newUser u hashed "admin" "pending") },
        none) := by
    show UserService.ApplyForAdmin registered u = _
    simp [UserService.ApplyForAdmin, h1, newUser]
  have h2 : applied.1.Users.get? u = some (newUser u hashed "admin" "pending") := by
    rw [happ]
    simp [GoMap.get?_set]
  have hapr : approved =
      (InMemoryUserRepository.saveToFile
        { applied.1 with Users := applied.1.Users.set u (newUser u hashed "admin" "approved") },
        none) := by
    show applied.1.ApproveAdmin u = _
    simp [InMemoryUserRepository.ApproveAdmin, h2, newUser]
  have h3 : approved.1.Users.get? u = some (newUser u hashed "admin" "approved") := by
    rw [hapr]
    simp [saveToFile_Users, GoMap.get?_set]
  refine ⟨h1, by rw [happ], by rw [hapr], h3, ?_⟩
  simp [UserController.Login, UserService.LoginUser,
    InMemoryUserRepository.FindUserByUsername, h3, hverify, newUser]

/-- Instance of C3: `carol` registers on the sample repository with password
`pw`, applies, is approved, and logs in as an administrator. -/
theorem C3_register_apply_approve_login_witness :
    Fields (TrimSpace "reg carol pw\n") = ["reg", "carol", "pw"] ∧
    (sampleSession []).repo.Users.get? "carol" = none ∧
    env72.bcrypt.GenerateFromPassword "pw" = .ok "$2a$10$pw" ∧
    env72.bcrypt.CompareHashAndPassword "$2a$10$pw" "pw" = true ∧
    UserController.Login env72.bcrypt
      ((UserService.ApplyForAdmin
          (unauthStep env72 "reg carol pw\n" (sampleSession [])).1.repo "carol").1.ApproveAdmin
        "carol").1 "carol" "pw" = ("carol", true, none) :=
  ⟨by decide, by decide, rfl, by decide,
    (C3_register_apply_approve_login env72 (sampleSession []) "reg carol pw\n" "carol" "pw"
      "$2a$10$pw" (by decide) (by decide) rfl (by decide)).2.2.2.2⟩

/-- C4: for every repository and every user stored with role "admin" and status
"pending", `ApplyForAdmin` returns the error "admin application already pending"
(the controller answers "Error: admin application already pending", which is
what the `apply-admin` command writes) and the repository is unchanged; in
particular, whenever a first `ApplyForAdmin`
succeeds, a second one right after it fails with that error and changes
nothing. -/
theorem C4_apply_admin_already_pending (repo : InMemoryUserRepository) (username : String) :
    (∀ user : User, repo.Users.get? username = some user →
      user.Role = "admin" → user.Status = "pending" →
      UserService.ApplyForAdmin repo username =
        (repo, some "admin application already pending") ∧
      UserController.ApplyForAdmin repo username =
        (repo, "Error: admin application already pending") ∧
      ∀ (env : Env) (isAdmin : Bool) (s : Session) (command : String) (args : List String),
        s.repo = repo → Fields (TrimSpace command) = "apply-admin" :: args →
        authStep env username isAdmin command s =
          (s.write ("Error: admin application already pending" ++ "\n"), Flow.next)) ∧
    ((UserService.ApplyForAdmin repo username).2 = none →
      UserService.ApplyForAdmin (UserService.ApplyForAdmin repo username).1 username =
        ((UserService.ApplyForAdmin repo username).1,
          some "admin application already pending")) := by
  have hfirst : ∀ (r : InMemoryUserRepository) (user : User), r.Users.get? username = some user →
      user.Role = "admin" → user.Status = "pending" →
      UserService.ApplyForAdmin r username = (r, some "admin application already pending") := by
    intro r user hu hr hs
    simp [UserService.ApplyForAdmin, hu, hr, hs]
  refine ⟨?_, ?_⟩
  · intro user hu hr hs
    have hctl : UserController.ApplyForAdmin repo username =
        (repo, "Error: admin application already pending") := by
      simp [UserController.ApplyForAdmin, hfirst repo user hu hr hs]
    refine ⟨hfirst repo user hu hr hs, hctl, ?_⟩
    intro env isAdmin s command args hrepo hc
    subst hrepo
    simp [authStep, hc, hctl]
  · intro hok
    cases hu : repo.Users.get? username with
    | none => simp [UserService.ApplyForAdmin, hu] at hok
    | some user =>
      by_cases hp : user.Status = "pending" ∧ user.Role = "admin"
      · simp [UserService.ApplyForAdmin, hu, hp] at hok
      · have happ : UserService.ApplyForAdmin repo username =
            ({ repo with
                Users := repo.Users.set username ({ user with Status := "pending", Role := "admin" }) },
              none) := by
          simp [UserService.ApplyForAdmin, hu, hp]
        rw [happ]
        exact hfirst _ { user with Status := "pending", Role := "admin" }
          (by simp [GoMap.get?_set]) rfl rfl

/-- Instance of C4: `alice` applies on the sample repository; her second
application is refused and leaves the repository as the first one left it. -/
theorem C4_apply_admin_already_pending_witness :
    (UserService.ApplyForAdmin sampleRepo "alice").2 = none ∧
    UserService.ApplyForAdmin (UserService.ApplyForAdmin sampleRepo "alice").1 "alice" =
      ((UserService.ApplyForAdmin sampleRepo "alice").1,
        some "admin application already pending") :=
  ⟨by decide, (C4_apply_admin_already_pending sampleRepo "alice").2 (by decide)⟩

/-- C5 (the code breaks it): `ApplyForAdmin` changes `Users` and does not write
the snapshot. On the sample repository, whose file is writable and equals its
memory,
`ApplyForAdmin "alice"` succeeds and leaves a file that differs from memory:
memory has `alice` with role "admin", a repository loaded from the file has her
with role "user". The same happens through a session that logs in as `alice`
and sends `apply-admin`. -/
theorem C5_apply_admin_not_persisted :
    sampleRepo.file.writable = true ∧ Synced sampleRepo ∧
    (UserService.ApplyForAdmin sampleRepo "alice").2 = none ∧
    ¬ Synced (UserService.ApplyForAdmin sampleRepo "alice").1 ∧
    ((UserService.ApplyForAdmin sampleRepo "alice").1.Users.get? "alice").map User.Role =
      some "admin" ∧
    ((NewInMemoryUserRepository
        (UserService.ApplyForAdmin sampleRepo "alice").1.file).Users.get? "alice").map User.Role =
      some "user" ∧
    (handleConnection env72 (sampleSession ["log alice secret", "apply-admin"])).map
      (fun s => decide (Synced s.repo)) = some false := by
  decide

/-- C6: `DeleteBlog` fails with "Blog not found" when the id is not a key of
`Blogs` and with "You are not the author of this blog" when the stored blog has
another author, the repository being unchanged in both cases; otherwise it
succeeds, `Users` is unchanged, the id is no longer a key and every other id
maps to the blog it mapped to before. -/
theorem C6_delete_blog (repo : InMemoryUserRepository) (username blogID : String) :
    (repo.Blogs.get? blogID = none →
      repo.DeleteBlog username blogID = (repo, some "Blog not found")) ∧
    (∀ blog : Blog, repo.Blogs.get? blogID = some blog → blog.Author ≠ username →
      repo.DeleteBlog username blogID = (repo, some "You are not the author of this blog")) ∧
    (∀ blog : Blog, repo.Blogs.get? blogID = some blog → blog.Author = username →
      (repo.DeleteBlog username blogID).2 = none ∧
      (repo.DeleteBlog username blogID).1.Users = repo.Users ∧
      (repo.DeleteBlog username blogID).1.Blogs.get? blogID = none ∧
      (∀ k : String, k ≠ blogID →
        (repo.DeleteBlog username blogID).1.Blogs.get? k = repo.Blogs.get? k)) := by
  refine ⟨?_, ?_, ?_⟩
  · intro h
    simp [DeleteBlog, h]
  · intro blog h hne
    simp [DeleteBlog, h, hne]
  · intro blog h he
    simp [DeleteBlog, h, he, saveToFile_Users, saveToFile_Blogs, GoMap.get?_delete]
    intro k hk
    simp [hk]

/-- Instance of C6 on the sample repository: `bob` cannot delete blog 101 of
`alice`, which stays retrievable; `alice` can, and blog 102 stays. -/
theorem C6_delete_blog_witness :
    sampleRepo.Blogs.get? "101" = some blogA1 ∧
    sampleRepo.DeleteBlog "bob" "101" =
      (sampleRepo, some "You are not the author of this blog") ∧
    (sampleRepo.DeleteBlog "alice" "101").1.Blogs.get? "101" = none ∧
    (sampleRepo.DeleteBlog "alice" "101").1.Blogs.get? "102" = sampleRepo.Blogs.get? "102" :=
  ⟨by decide,
    (C6_delete_blog sampleRepo "bob" "101").2.1 blogA1 (by decide) (by decide),
    ((C6_delete_blog sampleRepo "alice" "101").2.2 blogA1 (by decide) (by decide)).2.2.1,
    ((C6_delete_blog sampleRepo "alice" "101").2.2 blogA1 (by decide) (by decide)).2.2.2
      "102" (by decide)⟩

/-- C7: for every repository whose `Blogs` is a map (no key twice) and every
username, `GetBlogsByUser` returns only blogs of that author; a blog of that
author occurs in the result as often as there are keys it is stored under, so
every stored blog of the author is in the result, every element of the result
is stored, and, when every blog is stored under its own `ID`, each element
occurs exactly once. The first text the `my-blogs` case writes is "Your Blogs:"
followed by one entry per returned blog, numbered from 1 in the order of the
result, and the prompt. -/
theorem C7_blogs_by_user (repo : InMemoryUserRepository) (username : String)
    (hwf : repo.Blogs.WF) :
    (∀ b ∈ repo.GetBlogsByUser username, b.Author = username) ∧
    (∀ b : Blog, b.Author = username →
      (repo.GetBlogsByUser username).count b =
        (repo.Blogs.keys.filter (fun k => repo.Blogs.get? k = some b)).length) ∧
    (∀ (k : String) (b : Blog), repo.Blogs.get? k = some b → b.Author = username →
      b ∈ repo.GetBlogsByUser username) ∧
    (∀ b ∈ repo.GetBlogsByUser username, ∃ k : String, repo.Blogs.get? k = some b) ∧
    ((∀ (k : String) (b : Blog), repo.Blogs.get? k = some b → b.ID = k) →
      ∀ b ∈ repo.GetBlogsByUser username, (repo.GetBlogsByUser username).count b = 1) ∧
    (∀ (env : Env) (isAdmin : Bool) (s : Session), s.repo = repo →
      ∃ more : List String,
        (myBlogsCase env username isAdmin s).1.out =
          s.out ++
            ("Your Blogs:\n" ++
              String.join (((repo.GetBlogsByUser username).enum).map
                (fun ib => blogEntry (ib.1 + 1) ib.2)) ++
              "\nWould you like to post a new blog or delete one? (post/delete/exit): ") ::
            more) := by
  have hmem : ∀ b : Blog, b ∈ repo.GetBlogsByUser username ↔
      b ∈ repo.Blogs.values ∧ b.Author = username := by
    intro b
    rw [GetBlogsByUser_eq_filter]
    simp
  have hval : ∀ b : Blog, b ∈ repo.Blogs.values ↔ ∃ k : String, repo.Blogs.get? k = some b := by
    intro b
    constructor
    · intro hb
      simp only [GoMap.values, List.mem_map] at hb
      obtain ⟨⟨k, v⟩, hkv, rfl⟩ := hb
      exact ⟨k, GoMap.get?_of_mem _ hwf k v hkv⟩
    · rintro ⟨k, hk⟩
      simp only [GoMap.values, List.mem_map]
      exact ⟨(k, b), GoMap.mem_of_get? _ k b hk, rfl⟩
  have hcount : ∀ b : Blog, b.Author = username →
      (repo.GetBlogsByUser username).count b =
        (repo.Blogs.keys.filter (fun k => repo.Blogs.get? k = some b)).length := by
    intro b hb
    rw [GetBlogsByUser_eq_filter]
    exact count_values_filter repo.Blogs hwf username b hb
  refine ⟨fun b hb => ((hmem b).mp hb).2, hcount, ?_, ?_, ?_, ?_⟩
  · intro k b hk hb
    exact (hmem b).mpr ⟨(hval b).mpr ⟨k, hk⟩, hb⟩
  · intro b hb
    exact (hval b).mp ((hmem b).mp hb).1
  · intro hid b hb
    have hb' := (hmem b).mp hb
    obtain ⟨k, hk⟩ := (hval b).mp hb'.1
    have hkid : b.ID = k := hid k b hk
    subst hkid
    rw [hcount b hb'.2]
    have hfilter : repo.Blogs.keys.filter (fun k => repo.Blogs.get? k = some b) =
        repo.Blogs.keys.filter (fun k => k = b.ID) := by
      apply List.filter_congr
      intro k' _
      by_cases hk' : k' = b.ID
      · simp [hk', hk]
      · have : ¬ repo.Blogs.get? k' = some b := fun h => hk' (hid k' b h).symm
        simp [hk', this]
    rw [hfilter]
    have hin : b.ID ∈ repo.Blogs.keys := by
      by_contra hnot
      have := (GoMap.get?_eq_none_iff repo.Blogs b.ID).mpr hnot
      rw [hk] at this
      cases this
    have hc : repo.Blogs.keys.count b.ID = 1 := List.count_eq_one_of_mem hwf hin
    have hlen : (repo.Blogs.keys.filter (fun k => k = b.ID)).length =
        repo.Blogs.keys.count b.ID := by
      rw [List.count, List.countP_eq_length_filter]
      congr 1
    rw [hlen, hc]
  · intro env isAdmin s hs
    subst hs
    have hl : blogListing (UserController.GetBlogsByUser s.repo username) 0 "Your Blogs:\n" =
        "Your Blogs:\n" ++
          String.join (((s.repo.GetBlogsByUser username).enum).map
            (fun ib => blogEntry (ib.1 + 1) ib.2)) := by
      rw [blogListing_eq]
      rfl
    unfold myBlogsCase
    simp only [hl, Session.readTrimmed, Session.write]
    repeat' split
    all_goals simp

/-- Instance of C7 on the sample repository: the blogs of `alice` are her two
blogs, each once, and not the blog of `bob`. -/
theorem C7_blogs_by_user_witness :
    sampleRepo.Blogs.WF ∧
    sampleRepo.GetBlogsByUser "alice" = [blogA1, blogA2] ∧
    (sampleRepo.GetBlogsByUser "alice").count blogA1 = 1 ∧
    (∀ b ∈ sampleRepo.GetBlogsByUser "alice", b.Author = "alice") :=
  ⟨by decide, by decide,
    (C7_blogs_by_user sampleRepo "alice" (by decide)).2.2.2.2.1
      (by
        intro k b h
        have hmem := GoMap.mem_of_get? _ k b h
        simp only [sampleRepo, List.mem_cons, Prod.mk.injEq, List.mem_nil_iff, or_false] at hmem
        rcases hmem with ⟨rfl, rfl⟩ | ⟨rfl, rfl⟩ | ⟨rfl, rfl⟩ <;> rfl)
      blogA1 (by decide),
    (C7_blogs_by_user sampleRepo "alice" (by decide)).1⟩

/-- C8: `ApproveAdmin` fails with "User not found" when the username is absent
and with "User is not pending approval" when the stored status is not
"pending", the repository being unchanged in both cases; otherwise it succeeds,
the record of the user is the old one with `Status` set to "approved" (role,
hash and profile kept), every other username maps to what it mapped to before,
and `Blogs` is unchanged. -/
theorem C8_approve_admin (repo : InMemoryUserRepository) (username : String) :
    (repo.Users.get? username = none →
      repo.ApproveAdmin username = (repo, some "User not found")) ∧
    (∀ user : User, repo.Users.get? username = some user → user.Status ≠ "pending" →
      repo.ApproveAdmin username = (repo, some "User is not pending approval")) ∧
    (∀ user : User, repo.Users.get? username = some user → user.Status = "pending" →
      (repo.ApproveAdmin username).2 = none ∧
      (repo.ApproveAdmin username).1.Users.get? username =
        some { user with Status := "approved" } ∧
      (∀ k : String, k ≠ username →
        (repo.ApproveAdmin username).1.Users.get? k = repo.Users.get? k) ∧
      (repo.ApproveAdmin username).1.Blogs = repo.Blogs) := by
  refine ⟨?_, ?_, ?_⟩
  · intro h
    simp [ApproveAdmin, h]
  · intro user h hne
    simp [ApproveAdmin, h, hne]
  · intro user h he
    simp [ApproveAdmin, h, he, saveToFile_Users, saveToFile_Blogs, GoMap.get?_set]
    intro k hk
    simp [hk]

/-- Instance of C8 on the sample repository: `alice` (pending) is approved and
keeps her role, `bob` (approved) cannot be approved, `carol` is not found. -/
theorem C8_approve_admin_witness :
    sampleRepo.ApproveAdmin "carol" = (sampleRepo, some "User not found") ∧
    sampleRepo.ApproveAdmin "bob" = (sampleRepo, some "User is not pending approval") ∧
    (sampleRepo.ApproveAdmin "alice").1.Users.get? "alice" =
      some { alice with Status := "approved" } :=
  ⟨(C8_approve_admin sampleRepo "carol").1 (by decide),
    (C8_approve_admin sampleRepo "bob").2.1 bob (by decide) (by decide),
    ((C8_approve_admin sampleRepo "alice").2.2 alice (by decide) (by decide)).2.1⟩

/-- C9: `RejectAdmin` returns the same error as `ApproveAdmin` (it fails exactly
when the user is absent or the stored status is not "pending") and a failure
leaves the repository unchanged; on success the username is no longer a key of
`Users` (`FindUserByUsername` answers "User not found"), every other username
maps to what it mapped to before, and `Blogs` is unchanged, so the blogs of the
removed user are still returned by `GetBlogsByUser`. -/
theorem C9_reject_admin (repo : InMemoryUserRepository) (username : String) :
    (repo.RejectAdmin username).2 = (repo.ApproveAdmin username).2 ∧
    ((repo.RejectAdmin username).2 ≠ none ↔
      (repo.Users.get? username = none ∨
        ∃ user : User, repo.Users.get? username = some user ∧ user.Status ≠ "pending")) ∧
    ((repo.RejectAdmin username).2 ≠ none → (repo.RejectAdmin username).1 = repo) ∧
    ((repo.RejectAdmin username).2 = none →
      (repo.RejectAdmin username).1.Users.get? username = none ∧
      (repo.RejectAdmin username).1.FindUserByUsername username = .error "User not found" ∧
      (∀ k : String, k ≠ username →
        (repo.RejectAdmin username).1.Users.get? k = repo.Users.get? k) ∧
      (repo.RejectAdmin username).1.Blogs = repo.Blogs ∧
      (repo.RejectAdmin username).1.GetBlogsByUser username = repo.GetBlogsByUser username) := by
  cases h : repo.Users.get? username with
  | none => simp [RejectAdmin, ApproveAdmin, h]
  | some user =>
    by_cases hs : user.Status = "pending"
    · simp [RejectAdmin, ApproveAdmin, h, hs, saveToFile_Users, saveToFile_Blogs,
        GoMap.get?_delete, FindUserByUsername, GetBlogsByUser]
      intro k hk
      simp [hk]
    · simp [RejectAdmin, ApproveAdmin, h, hs]

/-- Instance of C9 on the sample repository: rejecting `alice` (pending) removes
her record and keeps her blogs; rejecting `bob` (approved) fails. -/
theorem C9_reject_admin_witness :
    (sampleRepo.RejectAdmin "alice").2 = none ∧
    (sampleRepo.RejectAdmin "alice").1.FindUserByUsername "alice" = .error "User not found" ∧
    (sampleRepo.RejectAdmin "alice").1.GetBlogsByUser "alice" = [blogA1, blogA2] ∧
    (sampleRepo.RejectAdmin "bob").1 = sampleRepo :=
  ⟨by decide,
    ((C9_reject_admin sampleRepo "alice").2.2.2 (by decide)).2.1,
    (((C9_reject_admin sampleRepo "alice").2.2.2 (by decide)).2.2.2.2).trans (by decide),
    (C9_reject_admin sampleRepo "bob").2.2.1 (by decide)⟩

/-- C10: `DeleteUser` fails with "User not found" and leaves the repository
unchanged when the username is absent; otherwise it succeeds, the username is
no longer a key of `Users`, every other username maps to what it mapped to
before, and `Blogs` is unchanged, so `GetBlogsByUser` of the deleted username
returns the same blogs as before. -/
theorem C10_delete_user (repo : InMemoryUserRepository) (username : String) :
    (repo.Users.get? username = none →
      repo.DeleteUser username = (repo, some "User not found")) ∧
    (repo.Users.get? username ≠ none →
      (repo.DeleteUser username).2 = none ∧
      (repo.DeleteUser username).1.Users.get? username = none ∧
      (∀ k : String, k ≠ username →
        (repo.DeleteUser username).1.Users.get? k = repo.Users.get? k) ∧
      (repo.DeleteUser username).1.Blogs = repo.Blogs ∧
      (repo.DeleteUser username).1.GetBlogsByUser username = repo.GetBlogsByUser username) := by
  cases h : repo.Users.get? username with
  | none => simp [DeleteUser, h]
  | some user =>
    simp [DeleteUser, h, saveToFile_Users, saveToFile_Blogs, GoMap.get?_delete, GetBlogsByUser]
    intro k hk
    simp [hk]

/-- Instance of C10 on the sample repository: deleting `alice` removes her
record, keeps `bob` and keeps her two blogs; deleting `carol` fails. -/
theorem C10_delete_user_witness :
    sampleRepo.DeleteUser "carol" = (sampleRepo, some "User not found") ∧
    (sampleRepo.DeleteUser "alice").1.Users.get? "alice" = none ∧
    (sampleRepo.DeleteUser "alice").1.Users.get? "bob" = some bob ∧
    (sampleRepo.DeleteUser "alice").1.GetBlogsByUser "alice" = [blogA1, blogA2] :=
  ⟨(C10_delete_user sampleRepo "carol").1 (by decide),
    ((C10_delete_user sampleRepo "alice").2 (by decide)).2.1,
    (((C10_delete_user sampleRepo "alice").2 (by decide)).2.2.1 "bob" (by decide)).trans
      (by decide),
    (((C10_delete_user sampleRepo "alice").2 (by decide)).2.2.2.2).trans (by decide)⟩

/-- C11: for a logged-in session with `isAdmin = false`, a line whose first
token is `list-pending` or `list-users` is answered with "You do not have
permission to perform this action." and "Returning to main menu."; the
repository is unchanged, no further line is read (the reader is unchanged), and
the inner loop goes on with the same user and flag: the loop started on that
line is the loop continued on the lines after it. -/
theorem C11_admin_verbs_denied (env : Env) (loggedInUser command : String)
    (args : List String) (s : Session)
    (hc : Fields (TrimSpace command) = "list-pending" :: args ∨
          Fields (TrimSpace command) = "list-users" :: args) :
    authStep env loggedInUser false command s =
      (s.write ("You do not have permission to perform this action.\nReturning to main menu.\n"
        ++ "\n"), Flow.next) ∧
    (authStep env loggedInUser false command s).1.repo = s.repo ∧
    (authStep env loggedInUser false command s).1.reader = s.reader ∧
    (∀ (fuel : Nat) (s0 : Session) (line : String) (rest : List String),
      s0.reader.lines = line :: rest → line ++ "\n" = command →
      ({ s0 with reader := { s0.reader with lines := rest } } : Session) = s →
      authLoop env loggedInUser false (fuel + 1) s0 =
        authLoop env loggedInUser false fuel
          (s.write ("You do not have permission to perform this action.\nReturning to main menu.\n"
            ++ "\n"))) := by
  have hstep : ∀ c : String, (Fields (TrimSpace c) = "list-pending" :: args ∨
          Fields (TrimSpace c) = "list-users" :: args) →
      authStep env loggedInUser false c s =
      (s.write ("You do not have permission to perform this action.\nReturning to main menu.\n"
        ++ "\n"), Flow.next) := by
    intro c hc
    rcases hc with hc | hc
    · simp [authStep, hc, listPendingCase]
    · simp [authStep, hc]
  refine ⟨hstep command hc, by rw [hstep command hc]; rfl, by rw [hstep command hc]; rfl, ?_⟩
  intro fuel s0 line rest hl hf hs
  subst hs hf
  simp only [authLoop, Reader.ReadString, hl, hstep _ hc]

/-- Instance of C11: `alice`, logged in without admin rights on the sample
repository, sends `list-users` and then `list-pending`. -/
theorem C11_admin_verbs_denied_witness :
    Fields (TrimSpace "list-users\n") = "list-users" :: [] ∧
    authStep env72 "alice" false "list-users\n" (sampleSession ["list-pending"]) =
      ((sampleSession ["list-pending"]).write
        "You do not have permission to perform this action.\nReturning to main menu.\n\n",
        Flow.next) :=
  ⟨by decide,
    (C11_admin_verbs_denied env72 "alice" "list-users\n" [] (sampleSession ["list-pending"])
      (Or.inr (by decide))).1⟩

/-- C12: when the user stored under the username verifies the password, `Login`
succeeds and returns `isAdmin = true` exactly when the stored `Role` is "admin"
and the stored `Status` is "approved"; conversely every successful `Login`
comes from such a stored user, so role "admin" with status "pending" and role
"user" with status "approved" both log in with `isAdmin = false`. -/
theorem C12_login_admin_flag (bc : Bcrypt) (repo : InMemoryUserRepository)
    (username password : String) :
    (∀ user : User, repo.Users.get? username = some user →
      bc.CompareHashAndPassword user.Password password = true →
      UserController.Login bc repo username password =
        (user.Username, decide (user.Role = "admin" ∧ user.Status = "approved"), none)) ∧
    (∀ (name : String) (isAdmin : Bool),
      UserController.Login bc repo username password = (name, isAdmin, none) →
      ∃ user : User, repo.Users.get? username = some user ∧
        bc.CompareHashAndPassword user.Password password = true ∧
        name = user.Username ∧
        (isAdmin = true ↔ user.Role = "admin" ∧ user.Status = "approved") ∧
        (user.Role = "admin" → user.Status = "pending" → isAdmin = false) ∧
        (user.Role = "user" → user.Status = "approved" → isAdmin = false)) := by
  have hok : ∀ user : User, repo.Users.get? username = some user →
      bc.CompareHashAndPassword user.Password password = true →
      UserController.Login bc repo username password =
        (user.Username, decide (user.Role = "admin" ∧ user.Status = "approved"), none) := by
    intro user hu hv
    simp [UserController.Login, UserService.LoginUser, FindUserByUsername, hu, hv]
  refine ⟨hok, ?_⟩
  intro name isAdmin hlogin
  cases hu : repo.Users.get? username with
  | none =>
    simp [UserController.Login, UserService.LoginUser, FindUserByUsername, hu] at hlogin
  | some user =>
    cases hv : bc.CompareHashAndPassword user.Password password with
    | false =>
      simp [UserController.Login, UserService.LoginUser, FindUserByUsername, hu, hv] at hlogin
    | true =>
      rw [hok user hu hv] at hlogin
      simp only [Prod.mk.injEq] at hlogin
      obtain ⟨hn, ha, _⟩ := hlogin
      refine ⟨user, rfl, hv, hn.symm, ?_, ?_, ?_⟩
      · rw [← ha]; simp
      · intro hr hs
        rw [← ha]; simp [hr, hs]
      · intro hr hs
        rw [← ha]; simp [hr, hs]

/-- Instance of C12 on the sample repository: `bob` (admin, approved) logs in as
an administrator, `alice` (user, pending) does not. -/
theorem C12_login_admin_flag_witness :
    UserController.Login bcrypt72 sampleRepo "bob" "hunter2" = ("bob", true, none) ∧
    UserController.Login bcrypt72 sampleRepo "alice" "secret" = ("alice", false, none) :=
  ⟨(C12_login_admin_flag bcrypt72 sampleRepo "bob" "hunter2").1 bob (by decide) (by decide),
    (C12_login_admin_flag bcrypt72 sampleRepo "alice" "secret").1 alice (by decide)
      (by decide)⟩

/-- C13: in the `my-blogs` case, after the answer `delete`: with no listed blog
the dialogue answers "You have no blogs to delete.", reads no index line and
leaves the repository unchanged; with `n >= 1` listed blogs, an index line that
`Atoi` rejects or that is below 1 or above `n` is answered with "Invalid blog
number." and leaves the repository unchanged; an index `i` with `1 <= i <= n`
(in a store whose blogs have distinct keys and are stored under their own `ID`)
deletes the blog at position `i` of the listed blogs, the one the listing
written before shows with number `i`: its id is no longer a key, every other
id maps to what it mapped to before, and `Users` is unchanged. -/
theorem C13_delete_dialogue (env : Env) (loggedInUser : String) (isAdmin : Bool) (s : Session)
    (action : String) (hact : TrimSpace (action ++ "\n") = "delete") :
    (∀ rest : List String, s.reader.lines = action :: rest →
      (s.repo.GetBlogsByUser loggedInUser).length = 0 →
      (myBlogsCase env loggedInUser isAdmin s).2 =
        "You have no blogs to delete.\nReturning to main menu.\n" ∧
      (myBlogsCase env loggedInUser isAdmin s).1.repo = s.repo ∧
      (myBlogsCase env loggedInUser isAdmin s).1.reader.lines = rest) ∧
    (∀ (indexInput : String) (rest : List String),
      s.reader.lines = action :: indexInput :: rest →
      1 ≤ (s.repo.GetBlogsByUser loggedInUser).length →
      (Atoi (TrimSpace (indexInput ++ "\n")) = none ∨
        ∃ index : Int, Atoi (TrimSpace (indexInput ++ "\n")) = some index ∧
          (index < 1 ∨ index > ((s.repo.GetBlogsByUser loggedInUser).length : Int))) →
      (myBlogsCase env loggedInUser isAdmin s).2 =
        "Invalid blog number.\nReturning to main menu.\n" ∧
      (myBlogsCase env loggedInUser isAdmin s).1.repo = s.repo) ∧
    (∀ (indexInput : String) (rest : List String) (index : Int),
      s.reader.lines = action :: indexInput :: rest →
      Atoi (TrimSpace (indexInput ++ "\n")) = some index →
      1 ≤ index → index ≤ ((s.repo.GetBlogsByUser loggedInUser).length : Int) →
      s.repo.Blogs.WF → (∀ (k : String) (b : Blog), s.repo.Blogs.get? k = some b → b.ID = k) →
      ∃ blog : Blog,
        (s.repo.GetBlogsByUser loggedInUser).get? (index - 1).toNat = some blog ∧
        s.repo.Blogs.get? blog.ID = some blog ∧
        (myBlogsCase env loggedInUser isAdmin s).2 = "Blog deleted successfully!" ∧
        (myBlogsCase env loggedInUser isAdmin s).1.repo.Blogs.get? blog.ID = none ∧
        (∀ k : String, k ≠ blog.ID →
          (myBlogsCase env loggedInUser isAdmin s).1.repo.Blogs.get? k =
            s.repo.Blogs.get? k) ∧
        (myBlogsCase env loggedInUser isAdmin s).1.repo.Users = s.repo.Users ∧
        (myBlogsCase env loggedInUser isAdmin s).1.out =
          s.out ++
            ["Your Blogs:\n" ++
                String.join (((s.repo.GetBlogsByUser loggedInUser).enum).map
                  (fun ib => blogEntry (ib.1 + 1) ib.2)) ++
                "\nWould you like to post a new blog or delete one? (post/delete/exit): ",
              "Enter the blog number to delete: "]) := by
  obtain ⟨repo, ticks, ⟨lines, rst⟩, out⟩ := s
  refine ⟨?_, ?_, ?_⟩
  · intro rest hl hn
    simp only at hl hn
    subst hl
    simp [myBlogsCase, Session.readTrimmed, Reader.ReadString, Session.write, hact,
      UserController.GetBlogsByUser, UserService.GetBlogsByUser, hn]
  · intro indexInput rest hl hn hbad
    simp only at hl hn hbad
    subst hl
    have hn0 : ¬ (repo.GetBlogsByUser loggedInUser).length = 0 := by omega
    rcases hbad with hbad | ⟨index, hidx, hrange⟩
    · simp [myBlogsCase, Session.readTrimmed, Reader.ReadString, Session.write, hact,
        UserController.GetBlogsByUser, UserService.GetBlogsByUser, hn0, hbad]
    · simp [myBlogsCase, Session.readTrimmed, Reader.ReadString, Session.write, hact,
        UserController.GetBlogsByUser, UserService.GetBlogsByUser, hn0, hidx, hrange]
  · intro indexInput rest index hl hidx h1 hn hwf hid
    simp only at hl hn hwf hid
    subst hl
    have hn0 : ¬ (repo.GetBlogsByUser loggedInUser).length = 0 := by omega
    have hlt : (index - 1).toNat < (repo.GetBlogsByUser loggedInUser).length := by omega
    obtain ⟨blog, hblog⟩ : ∃ blog : Blog,
        (repo.GetBlogsByUser loggedInUser).get? (index - 1).toNat = some blog :=
      ⟨_, List.get?_eq_get hlt⟩
    have hmem : blog ∈ repo.GetBlogsByUser loggedInUser := List.get?_mem hblog
    obtain ⟨⟨k, hk⟩, hauthor⟩ := (mem_GetBlogsByUser repo hwf loggedInUser blog).mp hmem
    have hkid : blog.ID = k := hid k blog hk
    subst hkid
    have hrange : ¬ (index < 1 ∨ index > ((repo.GetBlogsByUser loggedInUser).length : Int)) := by
      omega
    have hblog' : (repo.GetBlogsByUser loggedInUser)[index.toNat - 1]? = some blog := by
      simpa using hblog
    refine ⟨blog, hblog, hk, ?_⟩
    simp [myBlogsCase, Session.readTrimmed, Reader.ReadString, Session.write, hact,
      UserController.GetBlogsByUser, UserService.GetBlogsByUser, hn0, hidx, hrange, hblog',
      UserController.DeleteBlog, UserService.DeleteBlog, DeleteBlog, hk, hauthor,
      saveToFile_Users, saveToFile_Blogs, GoMap.get?_delete, blogListing_eq, List.enum]
    intro k hk'
    simp [hk']

/-- Instance of C13 on the sample repository: `alice` lists her blogs 101 and
103 and answers `delete`, `2`; blog 103 is removed and blog 101 stays. -/
theorem C13_delete_dialogue_witness :
    TrimSpace ("delete" ++ "\n") = "delete" ∧
    (myBlogsCase env72 "alice" false (sampleSession ["delete", "2"])).2 =
      "Blog deleted successfully!" ∧
    (myBlogsCase env72 "alice" false (sampleSession ["delete", "2"])).1.repo.Blogs =
      [("101", blogA1), ("102", blogB1)] ∧
    (myBlogsCase env72 "alice" false (sampleSession ["delete", "7"])).2 =
      "Invalid blog number.\nReturning to main menu.\n" :=
  ⟨by decide, by decide, by decide,
    ((C13_delete_dialogue env72 "alice" false (sampleSession ["delete", "7"]) "delete"
      (by decide)).2.1 "7" [] rfl (by decide) (Or.inr ⟨7, by decide, Or.inr (by decide)⟩)).1⟩

/-- C14: `UpdateUserProfile` fails with "User not found" and leaves the
repository unchanged (no record is created) when the username is absent; when
it is present (stored under its own `Username`) the call succeeds, the record
of the user keeps its `Username`, `Password`, `Role` and `Status` and has
exactly the seven given values as profile fields, every other username maps to
what it mapped to before, and `Blogs` is unchanged. -/
theorem C14_update_user_profile (repo : InMemoryUserRepository)
    (username name surname favAnimal favMovie yearOfBirth city footballTeam : String) :
    (repo.Users.get? username = none →
      UserService.UpdateUserProfile repo username name surname favAnimal favMovie yearOfBirth
        city footballTeam = (repo, some "User not found")) ∧
    (∀ user : User, repo.Users.get? username = some user → user.Username = username →
      (UserService.UpdateUserProfile repo username name surname favAnimal favMovie yearOfBirth
        city footballTeam).2 = none ∧
      (UserService.UpdateUserProfile repo username name surname favAnimal favMovie yearOfBirth
        city footballTeam).1.Users.get? username =
        some { Username := user.Username, Password := user.Password, Role := user.Role,
               Status := user.Status, Name := name, Surname := surname,
               FavAnimal := favAnimal, FavMovie := favMovie, YearOfBirth := yearOfBirth,
               CityOfBirth := city, FootballTeam := footballTeam } ∧
      (∀ k : String, k ≠ username →
        (UserService.UpdateUserProfile repo username name surname favAnimal favMovie
          yearOfBirth city footballTeam).1.Users.get? k = repo.Users.get? k) ∧
      (UserService.UpdateUserProfile repo username name surname favAnimal favMovie yearOfBirth
        city footballTeam).1.Blogs = repo.Blogs) := by
  refine ⟨?_, ?_⟩
  · intro h
    simp [UserService.UpdateUserProfile, FindUserByUsername, h]
  · intro user h hname
    simp [UserService.UpdateUserProfile, FindUserByUsername, h, UpdateUser, hname,
      saveToFile_Users, saveToFile_Blogs, GoMap.get?_set]
    intro k hk
    simp [hk]

/-- Instance of C14 on the sample repository: the profile of `bob` (name "Bob")
is overwritten with empty fields but for the city; `alice` is untouched. -/
theorem C14_update_user_profile_witness :
    (UserService.UpdateUserProfile sampleRepo "bob" "" "" "" "" "" "Izmir" "").1.Users.get?
        "bob" =
      some { bob with Name := "", CityOfBirth := "Izmir" } ∧
    (UserService.UpdateUserProfile sampleRepo "bob" "" "" "" "" "" "Izmir" "").1.Users.get?
        "alice" = some alice ∧
    UserService.UpdateUserProfile sampleRepo "carol" "" "" "" "" "" "Izmir" "" =
      (sampleRepo, some "User not found") :=
  ⟨(((C14_update_user_profile sampleRepo "bob" "" "" "" "" "" "Izmir" "").2 bob (by decide)
      (by decide)).2.1).trans (by decide),
    ((((C14_update_user_profile sampleRepo "bob" "" "" "" "" "" "Izmir" "").2 bob (by decide)
      (by decide)).2.2.1) "alice" (by decide)).trans (by decide),
    (C14_update_user_profile sampleRepo "carol" "" "" "" "" "" "Izmir" "").1 (by decide)⟩

/-- C15 (the code breaks it): `generateBlogID` is the decimal clock reading, and
`CreateBlog` assigns `Blogs[blogID]` without looking whether the id is taken. In
the store reached from the empty store by registering `alice` and creating a
blog at clock reading 1700000000000000000, a second `CreateBlog` at the same
reading leaves one blog, not two, and the first blog is gone. The same happens
in a session whose two posts read the same clock value: the sample store goes
from three blogs to four, and only the second post is listed. -/
theorem C15_blog_id_collision :
    Reachable (((emptyRepo.CreateUser alice).1.CreateBlog 1700000000000000000
      "alice" "Hello" "first").1) ∧
    (((emptyRepo.CreateUser alice).1.CreateBlog 1700000000000000000
      "alice" "Hello" "first").1.Blogs) =
      [("1700000000000000000",
        { ID := "1700000000000000000", Author := "alice", Title := "Hello", Text := "first" })] ∧
    ((((emptyRepo.CreateUser alice).1.CreateBlog 1700000000000000000
      "alice" "Hello" "first").1.CreateBlog 1700000000000000000
      "alice" "Again" "second").1.Blogs) =
      [("1700000000000000000",
        { ID := "1700000000000000000", Author := "alice", Title := "Again", Text := "second" })] ∧
    (handleConnection envFrozen
      (sampleSession ["log alice secret", "my-blogs", "post", "One", "first post",
        "my-blogs", "post", "Two", "second post"])).map
      (fun s => (s.repo.Blogs.length, s.repo.GetBlogsByUser "alice")) =
      some (4, [blogA1, blogA2,
        { ID := "1700000000000000000", Author := "alice", Title := "Two",
          Text := "second post" }]) := by
  refine ⟨Reachable.CreateBlog _ _ _ _ (Reachable.CreateUser _ (Reachable.empty _)), ?_, ?_, ?_⟩
  · decide
  · decide
  · decide

/-- C16 (amended): `reg` and `log` with an argument count other than two are
answered with their usage hint, the repository and the reader are untouched and
the outer loop continues. The verbs without arguments do not count their
arguments: `exit` followed by further tokens ends the session, and every
logged-in command is handled exactly as the line made of its first token
alone. -/
theorem C16_argument_counts (env : Env) (s : Session) :
    (∀ (command : String) (args : List String),
      Fields (TrimSpace command) = "reg" :: args → args.length ≠ 2 →
      unauthStep env command s =
        (s.write ("Usage: reg <username> <password>\n" ++ "\n"), Flow.next)) ∧
    (∀ (command : String) (args : List String),
      Fields (TrimSpace command) = "log" :: args → args.length ≠ 2 →
      unauthStep env command s =
        (s.write ("Usage: log <username> <password>\n" ++ "\n"), Flow.next)) ∧
    (∀ (command : String) (args : List String),
      Fields (TrimSpace command) = "exit" :: args →
      unauthStep env command s = (s.write ("Goodbye!" ++ "\n"), Flow.stop)) ∧
    (∀ (loggedInUser : String) (isAdmin : Bool) (command bare cmd : String)
        (args : List String),
      Fields (TrimSpace command) = cmd :: args → Fields (TrimSpace bare) = [cmd] →
      authStep env loggedInUser isAdmin command s = authStep env loggedInUser isAdmin bare s) := by
  refine ⟨?_, ?_, ?_, ?_⟩
  · intro command args hc hlen
    match args, hlen, hc with
    | [], _, hc => simp [unauthStep, hc]
    | [_], _, hc => simp [unauthStep, hc]
    | [_, _], hlen, _ => exact absurd rfl hlen
    | _ :: _ :: _ :: _, _, hc => simp [unauthStep, hc]
  · intro command args hc hlen
    match args, hlen, hc with
    | [], _, hc => simp [unauthStep, hc]
    | [_], _, hc => simp [unauthStep, hc]
    | [_, _], hlen, _ => exact absurd rfl hlen
    | _ :: _ :: _ :: _, _, hc => simp [unauthStep, hc]
  · intro command args hc
    simp [unauthStep, hc]
  · intro u a command bare cmd args hc hb
    simp only [authStep, hc, hb]

/-- Instance of C16: `reg alice` is answered with the usage hint, and
`apply-admin now` is handled as `apply-admin`. -/
theorem C16_argument_counts_witness :
    unauthStep env72 "reg alice\n" (sampleSession []) =
      ((sampleSession []).write "Usage: reg <username> <password>\n\n", Flow.next) ∧
    authStep env72 "alice" false "apply-admin now\n" (sampleSession []) =
      authStep env72 "alice" false "apply-admin\n" (sampleSession []) :=
  ⟨(C16_argument_counts env72 (sampleSession [])).1 "reg alice\n" ["alice"] (by decide)
      (by decide),
    (C16_argument_counts env72 (sampleSession [])).2.2.2 "alice" false "apply-admin now\n"
      "apply-admin\n" "apply-admin" ["now"] (by decide) (by decide)⟩

/-- C16 as stated fails for the verbs without arguments: `exit now` ends the
session in both states, and `apply-admin now` sent by `alice` is answered with
"Admin application submitted successfully." and changes her role to "admin". -/
theorem C16_extra_arguments_ignored :
    unauthStep env72 "exit now\n" (sampleSession []) =
      ((sampleSession []).write "Goodbye!\n", Flow.stop) ∧
    authStep env72 "alice" false "exit now\n" (sampleSession []) =
      ((sampleSession []).write "Goodbye!\n", Flow.stop) ∧
    (authStep env72 "alice" false "apply-admin now\n" (sampleSession [])).1.out =
      ["Admin application submitted successfully.\n"] ∧
    (authStep env72 "alice" false "apply-admin now\n" (sampleSession [])).1.repo ≠ sampleRepo ∧
    ((authStep env72 "alice" false "apply-admin now\n" (sampleSession [])).1.repo.Users.get?
      "alice").map User.Role = some "admin" := by
  decide

/-- C17: a line without tokens (in particular a line of white space only) is
answered with "Invalid command format." in the outer loop and with "Invalid
command format." and "Returning to main menu." in the inner loop; a line whose
first token is none of `reg`, `log`, `exit` (outer loop) or none of
`view-profile`, `my-blogs`, `apply-admin`, `list-pending`, `list-users`, `exit`
(inner loop) is answered with "Unknown command."; in all these cases the
session is the old one with that text written (same repository, same reader)
and the loop continues with the next line. -/
theorem C17_blank_and_unknown_lines (env : Env) (command : String) (s : Session) :
    (Fields (TrimSpace command) = [] →
      unauthStep env command s = (s.write "Invalid command format.\n", Flow.next) ∧
      ∀ (loggedInUser : String) (isAdmin : Bool),
        authStep env loggedInUser isAdmin command s =
          (s.write "Invalid command format.\nReturning to main menu.\n", Flow.next)) ∧
    ((∀ c ∈ command.data, isSpace c = true) → Fields (TrimSpace command) = []) ∧
    (∀ (cmd : String) (args : List String), Fields (TrimSpace command) = cmd :: args →
      cmd ≠ "reg" → cmd ≠ "log" → cmd ≠ "exit" →
      unauthStep env command s = (s.write ("Unknown command.\n" ++ "\n"), Flow.next)) ∧
    (∀ (cmd : String) (args : List String), Fields (TrimSpace command) = cmd :: args →
      cmd ≠ "view-profile" → cmd ≠ "my-blogs" → cmd ≠ "apply-admin" →
      cmd ≠ "list-pending" → cmd ≠ "list-users" → cmd ≠ "exit" →
      ∀ (loggedInUser : String) (isAdmin : Bool),
        authStep env loggedInUser isAdmin command s =
          (s.write ("Unknown command." ++ "\n"), Flow.next)) ∧
    (∀ t : String, (s.write t).repo = s.repo ∧ (s.write t).reader = s.reader) := by
  refine ⟨?_, Fields_blank command, ?_, ?_, fun t => ⟨rfl, rfl⟩⟩
  · intro h
    refine ⟨by simp [unauthStep, h], ?_⟩
    intro u a
    simp [authStep, h]
  · intro cmd args h h1 h2 h3
    simp [unauthStep, h, h1, h2, h3]
  · intro cmd args h h1 h2 h3 h4 h5 h6 u a
    simp [authStep, h, h1, h2, h3, h4, h5, h6]

/-- Instance of C17: a line of blanks and the line `view-profile` sent before
logging in. -/
theorem C17_blank_and_unknown_lines_witness :
    unauthStep env72 "  \t \r\n" (sampleSession []) =
      ((sampleSession []).write "Invalid command format.\n", Flow.next) ∧
    unauthStep env72 "view-profile\n" (sampleSession []) =
      ((sampleSession []).write "Unknown command.\n\n", Flow.next) ∧
    authStep env72 "alice" false "reg carol pw\n" (sampleSession []) =
      ((sampleSession []).write "Unknown command.\n", Flow.next) :=
  ⟨((C17_blank_and_unknown_lines env72 "  \t \r\n" (sampleSession [])).1 (by decide)).1,
    (C17_blank_and_unknown_lines env72 "view-profile\n" (sampleSession [])).2.2.1
      "view-profile" [] (by decide) (by decide) (by decide) (by decide),
    (C17_blank_and_unknown_lines env72 "reg carol pw\n" (sampleSession [])).2.2.2.1
      "reg" ["carol", "pw"] (by decide) (by decide) (by decide) (by decide) (by decide)
      (by decide) (by decide) "alice" false⟩

/-- C18: for every repository whose `Users` is a map (no key twice),
`GetPendingAdmins` returns only users with status "pending" and role "admin";
every stored user with that status and role is in the result, every element of
the result is stored, such a user occurs as often as there are keys it is
stored under, hence exactly once when every user is stored under its own
`Username`; a user with role "user" and status "pending", or with role "admin"
and status "approved", is never in the result. -/
theorem C18_pending_admins (repo : InMemoryUserRepository) (hwf : repo.Users.WF) :
    (∀ user ∈ repo.GetPendingAdmins, user.Status = "pending" ∧ user.Role = "admin") ∧
    (∀ (k : String) (user : User), repo.Users.get? k = some user →
      user.Status = "pending" → user.Role = "admin" → user ∈ repo.GetPendingAdmins) ∧
    (∀ user ∈ repo.GetPendingAdmins, ∃ k : String, repo.Users.get? k = some user) ∧
    (∀ user : User, user.Status = "pending" → user.Role = "admin" →
      repo.GetPendingAdmins.count user =
        (repo.Users.keys.filter (fun k => decide (repo.Users.get? k = some user))).length) ∧
    ((∀ (k : String) (user : User), repo.Users.get? k = some user → user.Username = k) →
      ∀ user ∈ repo.GetPendingAdmins, repo.GetPendingAdmins.count user = 1) ∧
    (∀ user : User, user.Role = "user" ∧ user.Status = "pending" ∨
        user.Role = "admin" ∧ user.Status = "approved" →
      user ∉ repo.GetPendingAdmins) := by
  have hmem : ∀ user : User, user ∈ repo.GetPendingAdmins ↔
      user ∈ repo.Users.values ∧ (user.Status = "pending" ∧ user.Role = "admin") := by
    intro user
    rw [GetPendingAdmins_eq_filter]
    simp
  have hcount : ∀ user : User, user.Status = "pending" → user.Role = "admin" →
      repo.GetPendingAdmins.count user =
        (repo.Users.keys.filter (fun k => decide (repo.Users.get? k = some user))).length := by
    intro user hs hr
    rw [GetPendingAdmins_eq_filter]
    exact count_values_filter_of repo.Users hwf
      (fun user => user.Status = "pending" ∧ user.Role = "admin") user ⟨hs, hr⟩
  refine ⟨fun user hu => ((hmem user).mp hu).2, ?_, ?_, hcount, ?_, ?_⟩
  · intro k user hk hs hr
    exact (hmem user).mpr ⟨(mem_values_iff _ hwf user).mpr ⟨k, hk⟩, hs, hr⟩
  · intro user hu
    exact (mem_values_iff _ hwf user).mp ((hmem user).mp hu).1
  · intro hid user hu
    have hu' := (hmem user).mp hu
    obtain ⟨k, hk⟩ := (mem_values_iff _ hwf user).mp hu'.1
    rw [hcount user hu'.2.1 hu'.2.2]
    apply keys_filter_eq_length_one repo.Users hwf k user hk
    intro k' hk'
    rw [← hid k' user hk', ← hid k user hk]
  · intro user hcase hu
    have hu' := ((hmem user).mp hu).2
    rcases hcase with ⟨hr, _⟩ | ⟨_, hs⟩
    · rw [hr] at hu'
      exact absurd hu'.2 (by decide)
    · rw [hs] at hu'
      exact absurd hu'.1 (by decide)

/-- Instance of C18: after `alice` applies on the sample repository she is the
one pending admin; `bob` (admin, approved) is not listed. -/
theorem C18_pending_admins_witness :
    (UserService.ApplyForAdmin sampleRepo "alice").1.Users.WF ∧
    (UserService.ApplyForAdmin sampleRepo "alice").1.GetPendingAdmins =
      [{ alice with Role := "admin" }] ∧
    bob ∉ (UserService.ApplyForAdmin sampleRepo "alice").1.GetPendingAdmins ∧
    alice ∉ sampleRepo.GetPendingAdmins :=
  ⟨by decide, by decide,
    (C18_pending_admins (UserService.ApplyForAdmin sampleRepo "alice").1 (by decide)).2.2.2.2.2
      bob (Or.inr (by decide)),
    (C18_pending_admins sampleRepo (by decide)).2.2.2.2.2 alice (Or.inl (by decide))⟩

/-- C19: in every store reachable from the empty store through the repository
methods, `ApplyForAdmin` and the iterations of the session loops, both maps
have pairwise distinct keys, every user is stored under its own `Username` and
every blog under its own `ID`; so the usernames of the stored users are
pairwise distinct, and two look-ups that return records with the same
`Username` are the same look-up. -/
theorem C19_usernames_unique (repo : InMemoryUserRepository) (h : Reachable repo) :
    repo.Users.WF ∧ repo.Blogs.WF ∧
    (∀ (k : String) (user : User), repo.Users.get? k = some user → user.Username = k) ∧
    (∀ (k : String) (blog : Blog), repo.Blogs.get? k = some blog → blog.ID = k) ∧
    (repo.GetAllUsers.map User.Username).Nodup ∧
    (∀ (k1 k2 : String) (u1 u2 : User), repo.Users.get? k1 = some u1 →
      repo.Users.get? k2 = some u2 → u1.Username = u2.Username → k1 = k2 ∧ u1 = u2) := by
  have hinv := Reachable_Inv repo h
  refine ⟨hinv.1, hinv.2.1, Inv_get_user repo hinv, Inv_get_blog repo hinv, ?_, ?_⟩
  · rw [GetAllUsers_eq_values]
    have hkeys : repo.Users.values.map User.Username = repo.Users.keys := by
      simp only [GoMap.values, GoMap.keys, List.map_map]
      apply List.map_congr_left
      intro e he
      exact hinv.2.2.1 e he
    rw [hkeys]
    exact hinv.1
  · intro k1 k2 u1 u2 h1 h2 hname
    have e1 := Inv_get_user repo hinv k1 u1 h1
    have e2 := Inv_get_user repo hinv k2 u2 h2
    have hk : k1 = k2 := by rw [← e1, ← e2, hname]
    subst hk
    rw [h1] at h2
    exact ⟨rfl, Option.some.inj h2⟩

/-- Instance of C19: the store reached by creating `alice` and `bob`. -/
theorem C19_usernames_unique_witness :
    Reachable ((emptyRepo.CreateUser alice).1.CreateUser bob).1 ∧
    ((emptyRepo.CreateUser alice).1.CreateUser bob).1.GetAllUsers.map User.Username =
      ["alice", "bob"] ∧
    (((emptyRepo.CreateUser alice).1.CreateUser bob).1.GetAllUsers.map User.Username).Nodup :=
  ⟨Reachable.CreateUser _ (Reachable.CreateUser _ (Reachable.empty _)), by decide,
    (C19_usernames_unique _
      (Reachable.CreateUser bob (Reachable.CreateUser alice (Reachable.empty _)))).2.2.2.2.1⟩

/-- C20 (amended): in the `my-blogs` case, after the answer `post`, the next two
lines are the title and the text; when the logged-in user is stored, a blog
with exactly the trimmed title and the trimmed text is stored under the
generated id, whether or not they are empty, and when the user is not stored the
answer is "Error: User not found" and the repository is unchanged. `CreateBlog`
itself always succeeds and stores the blog with the title and text it is
given. -/
theorem C20_post_dialogue (env : Env) (loggedInUser : String) (isAdmin : Bool) (s : Session)
    (action title text : String) (rest : List String)
    (hl : s.reader.lines = action :: title :: text :: rest)
    (hact : TrimSpace (action ++ "\n") = "post") :
    (s.repo.Users.get? loggedInUser ≠ none →
      (myBlogsCase env loggedInUser isAdmin s).2 = "Blog posted successfully!" ∧
      (myBlogsCase env loggedInUser isAdmin s).1.repo.Blogs.get?
          (generateBlogID (env.now s.ticks)) =
        some { ID := generateBlogID (env.now s.ticks), Author := loggedInUser,
               Title := TrimSpace (title ++ "\n"), Text := TrimSpace (text ++ "\n") }) ∧
    (s.repo.Users.get? loggedInUser = none →
      (myBlogsCase env loggedInUser isAdmin s).2 = "Error: User not found" ∧
      (myBlogsCase env loggedInUser isAdmin s).1.repo = s.repo) ∧
    (∀ (repo : InMemoryUserRepository) (now : Int) (username title text : String),
      (repo.CreateBlog now username title text).2 = none ∧
      (repo.CreateBlog now username title text).1.Blogs.get? (generateBlogID now) =
        some { ID := generateBlogID now, Author := username, Title := title, Text := text }) := by
  obtain ⟨repo, ticks, ⟨lines, rst⟩, out⟩ := s
  simp only at hl
  subst hl
  refine ⟨?_, ?_, ?_⟩
  · intro hu
    obtain ⟨user, huser⟩ : ∃ user, repo.Users.get? loggedInUser = some user := by
      cases hg : repo.Users.get? loggedInUser with
      | none => exact absurd hg hu
      | some user => exact ⟨user, rfl⟩
    simp [myBlogsCase, Session.readTrimmed, Reader.ReadString, Session.write, hact,
      UserController.PostBlog, UserService.CreateBlog, FindUserByUsername, huser, CreateBlog,
      saveToFile_Blogs, GoMap.get?_set]
  · intro hu
    simp at hu
    simp [myBlogsCase, Session.readTrimmed, Reader.ReadString, Session.write, hact,
      UserController.PostBlog, UserService.CreateBlog, FindUserByUsername, hu]
  · intro repo now username title text
    simp [CreateBlog, saveToFile_Blogs, GoMap.get?_set]

/-- Instance of C20: `alice` posts a blog with a title and a text on the sample
repository. -/
theorem C20_post_dialogue_witness :
    (sampleSession ["post", "Hi", "there"]).reader.lines = "post" :: "Hi" :: "there" :: [] ∧
    TrimSpace ("post" ++ "\n") = "post" ∧
    (myBlogsCase env72 "alice" false (sampleSession ["post", "Hi", "there"])).2 =
      "Blog posted successfully!" :=
  ⟨rfl, by decide,
    ((C20_post_dialogue env72 "alice" false (sampleSession ["post", "Hi", "there"])
      "post" "Hi" "there" [] rfl (by decide)).1 (by decide)).1⟩

/-- C20 as stated fails: no emptiness check is made. `CreateBlog` with an empty
title and text on a reachable store stores the blog, and a session in which
`alice` answers the title and text prompts with an empty line and a line of
blanks is answered "Blog posted successfully!" and stores a blog whose `Title`
and `Text` are empty. -/
theorem C20_empty_title_and_text :
    Reachable ((emptyRepo.CreateUser alice).1.CreateBlog 1700000000000000000 "alice" "" "").1 ∧
    ((emptyRepo.CreateUser alice).1.CreateBlog 1700000000000000000 "alice" "" "").1.Blogs =
      [("1700000000000000000",
        { ID := "1700000000000000000", Author := "alice", Title := "", Text := "" })] ∧
    (handleConnection env72
      (sampleSession ["log alice secret", "my-blogs", "post", "", "  "])).map
      (fun s => (s.out.getLast?, s.repo.Blogs.get? "1700000000000000000")) =
      some (some "Blog posted successfully!\n",
        some { ID := "1700000000000000000", Author := "alice", Title := "", Text := "" }) := by
  refine ⟨Reachable.CreateBlog _ _ _ _ (Reachable.CreateUser _ (Reachable.empty _)), ?_, ?_⟩
  · decide
  · decide

/-- C21 (the code breaks it): the reads inside the sub-dialogues drop the error
of `ReadString` and go on with the data read so far. On the sample repository, a
session that logs in as `bob`, sends `view-profile` and `yes` and is then cut
off has the seven profile fields read as empty strings and `bob` stored with an
empty `Name`; cut off right after `view-profile` it leaves the repository
unchanged. A session of `alice` cut off after `my-blogs` and `post` stores a
fourth blog with an empty title and text (cut off after the title line, with
that title and an empty text). After `delete` the empty index is refused, and
after `approve` the method `ApproveAdmin` is still called, with the empty
username, and answers "User not found". -/
theorem C21_read_failure_in_sub_dialogue :
    sampleRepo.Users.get? "bob" = some bob ∧ bob.Name = "Bob" ∧
    (handleConnection env72
      (sampleSession ["log bob hunter2", "view-profile", "yes"])).map
      (fun s => (s.reader.lines, s.repo.Users.get? "bob")) =
      some ([], some { bob with Name := "" }) ∧
    (handleConnection env72
      (sampleSession ["log bob hunter2", "view-profile"])).map
      (fun s => s.repo) = some sampleRepo ∧
    (handleConnection env72
      (sampleSession ["log alice secret", "my-blogs", "post"])).map
      (fun s => (s.repo.Blogs.length, s.repo.Blogs.get? "1700000000000000000")) =
      some (4, some { ID := "1700000000000000000", Author := "alice", Title := "",
                      Text := "" }) ∧
    (handleConnection env72
      (sampleSession ["log alice secret", "my-blogs", "post", "Title only"])).map
      (fun s => s.repo.Blogs.get? "1700000000000000000") =
      some (some { ID := "1700000000000000000", Author := "alice", Title := "Title only",
                   Text := "" }) ∧
    (handleConnection env72
      (sampleSession ["log alice secret", "my-blogs", "delete"])).map
      (fun s => (s.out.getLast?, s.repo)) =
      some (some "Invalid blog number.\nReturning to main menu.\n\n", sampleRepo) ∧
    (handleConnection env72
      (sampleSession ["log bob hunter2", "list-pending", "approve"])).map
      (fun s => (s.out.getLast?, s.repo)) =
      some (some "Error: User not found\n", sampleRepo) := by
  refine ⟨by decide, by decide, by decide, by decide, by decide, by decide, by decide,
    by decide⟩

/-- C22: in the inner loop, after a line whose first token is `view-profile`: for
every answer line whose trimmed text is not "yes" the step writes the profile
with the question and "Profile edit canceled.", leaves the repository unchanged,
has read the answer line only and continues the inner loop; for an answer that
trims to "yes" the next seven lines are read after the prompts "Name: ",
"Surname: ", "Favorite Animal: ", "Favorite Movie: ", "Year of Birth: ", "City
of Birth: ", "Football Team: ", and the repository becomes the result of one
`UpdateUserProfile` call for the logged-in user with the seven trimmed lines in
that order; the loop continues. -/
theorem C22_profile_edit_dialogue (env : Env) (loggedInUser : String) (isAdmin : Bool)
    (s : Session) (command : String) (args : List String)
    (hc : Fields (TrimSpace command) = "view-profile" :: args) :
    (∀ (answer : String) (rest : List String),
      s.reader.lines = answer :: rest → TrimSpace (answer ++ "\n") ≠ "yes" →
      (authStep env loggedInUser isAdmin command s).2 = Flow.next ∧
      (authStep env loggedInUser isAdmin command s).1.repo = s.repo ∧
      (authStep env loggedInUser isAdmin command s).1.reader.lines = rest ∧
      (authStep env loggedInUser isAdmin command s).1.out =
        s.out ++
          [UserController.ViewProfile s.repo loggedInUser ++
              "\nWould you like to edit your profile? (yes/no): ",
            "Profile edit canceled.\nReturning to main menu.\n" ++ "\n"]) ∧
    (∀ (answer name surname favAnimal favMovie yearOfBirth city footballTeam : String)
        (rest : List String),
      s.reader.lines =
        answer :: name :: surname :: favAnimal :: favMovie :: yearOfBirth :: city ::
          footballTeam :: rest →
      TrimSpace (answer ++ "\n") = "yes" →
      (authStep env loggedInUser isAdmin command s).2 = Flow.next ∧
      (authStep env loggedInUser isAdmin command s).1.repo =
        (UserService.UpdateUserProfile s.repo loggedInUser (TrimSpace (name ++ "\n"))
          (TrimSpace (surname ++ "\n")) (TrimSpace (favAnimal ++ "\n"))
          (TrimSpace (favMovie ++ "\n")) (TrimSpace (yearOfBirth ++ "\n"))
          (TrimSpace (city ++ "\n")) (TrimSpace (footballTeam ++ "\n"))).1 ∧
      (authStep env loggedInUser isAdmin command s).1.reader.lines = rest ∧
      (authStep env loggedInUser isAdmin command s).1.out =
        s.out ++
          [UserController.ViewProfile s.repo loggedInUser ++
              "\nWould you like to edit your profile? (yes/no): ",
            "Name: ", "Surname: ", "Favorite Animal: ", "Favorite Movie: ", "Year of Birth: ",
            "City of Birth: ", "Football Team: ",
            (UserController.UpdateProfile s.repo loggedInUser (TrimSpace (name ++ "\n"))
              (TrimSpace (surname ++ "\n")) (TrimSpace (favAnimal ++ "\n"))
              (TrimSpace (favMovie ++ "\n")) (TrimSpace (yearOfBirth ++ "\n"))
              (TrimSpace (city ++ "\n")) (TrimSpace (footballTeam ++ "\n"))).2 ++ "\n",
            displayMenu isAdmin ++ "\n"]) := by
  obtain ⟨repo, ticks, ⟨lines, rst⟩, out⟩ := s
  refine ⟨?_, ?_⟩
  · intro answer rest hl hans
    simp only at hl
    subst hl
    simp [authStep, hc, viewProfileCase, Session.readTrimmed, Reader.ReadString, Session.write,
      hans]
  · intro answer name surname favAnimal favMovie yearOfBirth city footballTeam rest hl hans
    simp only at hl
    subst hl
    simp [authStep, hc, viewProfileCase, Session.readTrimmed, Reader.ReadString, Session.write,
      hans, UpdateProfile_repo]

/-- Instance of C22 on the sample repository: the answers `Yes`, `y` and the
empty line do not trim to "yes" and leave the repository unchanged; after `yes`
the seven lines that follow become the profile of `bob`. -/
theorem C22_profile_edit_dialogue_witness :
    Fields (TrimSpace "view-profile\n") = "view-profile" :: [] ∧
    TrimSpace ("Yes" ++ "\n") ≠ "yes" ∧ TrimSpace ("y" ++ "\n") ≠ "yes" ∧
    TrimSpace ("" ++ "\n") ≠ "yes" ∧
    (authStep env72 "bob" true "view-profile\n" (sampleSession ["Yes", "exit"])).1.repo =
      sampleRepo ∧
    (authStep env72 "bob" true "view-profile\n" (sampleSession ["", "exit"])).1.repo =
      sampleRepo ∧
    ((authStep env72 "bob" true "view-profile\n"
      (sampleSession ["yes", "Robert", "Stone", "cat", "Heat", "1990", " Izmir ", "Fener",
        "exit"])).1.repo.Users.get? "bob") =
      some { bob with Name := "Robert", Surname := "Stone", FavAnimal := "cat",
                      FavMovie := "Heat", YearOfBirth := "1990", CityOfBirth := "Izmir",
                      FootballTeam := "Fener" } :=
  ⟨by decide, by decide, by decide, by decide,
    ((C22_profile_edit_dialogue env72 "bob" true (sampleSession ["Yes", "exit"])
      "view-profile\n" [] (by decide)).1 "Yes" ["exit"] rfl (by decide)).2.1,
    ((C22_profile_edit_dialogue env72 "bob" true (sampleSession ["", "exit"])
      "view-profile\n" [] (by decide)).1 "" ["exit"] rfl (by decide)).2.1,
    by decide⟩

/-- C23: start a server on the empty store with any number of connections, all
not logged in, and let their handlers run loop iterations in any order. Then no
stored user has status "approved", no connection is logged in with
`isAdmin = true`, no `Login` on the reached store yields `isAdmin = true`, and
every logged-in connection is answered "You do not have permission to perform
this action." on `list-pending` and `list-users`, the two cases in which
`ApproveAdmin`, `RejectAdmin` and `ViewUsers` are called. -/
theorem C23_no_first_administrator (env : Env) (file : File) (ticks : Nat)
    (clients : List Client) (schedule : List Nat)
    (hstart : ∀ c ∈ clients, c.phase = Phase.unauth) :
    let sv := Server.run env
      { repo := { Users := [], Blogs := [], file := file }, ticks := ticks, clients := clients }
      schedule
    (∀ (k : String) (user : User), sv.repo.Users.get? k = some user →
      user.Status ≠ "approved") ∧
    (∀ c ∈ sv.clients, ∀ (loggedInUser : String) (isAdmin : Bool),
      c.phase = Phase.auth loggedInUser isAdmin → isAdmin = false) ∧
    (∀ username password : String,
      (UserController.Login env.bcrypt sv.repo username password).2.1 = false) ∧
    (∀ c ∈ sv.clients, ∀ (loggedInUser : String) (isAdmin : Bool),
      c.phase = Phase.auth loggedInUser isAdmin →
      ∀ (s : Session) (command : String) (args : List String),
        (Fields (TrimSpace command) = "list-pending" :: args ∨
          Fields (TrimSpace command) = "list-users" :: args) →
        authStep env loggedInUser isAdmin command s =
          (s.write
            ("You do not have permission to perform this action.\nReturning to main menu.\n"
              ++ "\n"), Flow.next)) := by
  intro sv
  have h0 : NoApproved ({ Users := [], Blogs := [], file := file } : InMemoryUserRepository) := by
    intro e he
    simp at he
  have hc0 : NoAdminClient clients := by
    intro c hc u e
    rw [hstart c hc] at e
    cases e
  have hk := run_keeps env schedule
    { repo := { Users := [], Blogs := [], file := file }, ticks := ticks, clients := clients }
    h0 hc0
  have hflag : ∀ c ∈ sv.clients, ∀ (loggedInUser : String) (isAdmin : Bool),
      c.phase = Phase.auth loggedInUser isAdmin → isAdmin = false := by
    intro c hc u a e
    cases a with
    | false => rfl
    | true => exact absurd e (hk.2 c hc u)
  refine ⟨fun k user hu => NoApproved_get _ hk.1 k user hu, hflag,
    fun username password => NoApproved_Login env.bcrypt _ username password hk.1, ?_⟩
  intro c hc u a e s command args hcmd
  have ha := hflag c hc u a e
  subst ha
  rcases hcmd with hcmd | hcmd
  · simp [authStep, hcmd, listPendingCase]
  · simp [authStep, hcmd]

/-- Instance of C23: two connections on a fresh server; `alice` registers, logs
in, applies and is refused both admin commands, while a second connection
registers `bob` and applies again as `alice`; nobody is approved. -/
theorem C23_no_first_administrator_witness :
    (∀ c ∈ twoClients, c.phase = Phase.unauth) ∧
    (Server.run env72 { repo := emptyRepo, ticks := 0, clients := twoClients }
      [0, 1, 0, 1, 0, 1, 0, 0, 1, 0, 1, 7]).repo.Users.map (fun e => (e.1, e.2.Role, e.2.Status)) =
      [("alice", "admin", "pending"), ("bob", "user", "pending")] ∧
    (Server.run env72 { repo := emptyRepo, ticks := 0, clients := twoClients }
      [0, 1, 0, 1, 0, 1, 0, 0, 1, 0, 1, 7]).clients.map (fun c => c.phase) =
      [Phase.closed, Phase.closed] ∧
    ∀ username password : String,
      (UserController.Login env72.bcrypt
        (Server.run env72 { repo := emptyRepo, ticks := 0, clients := twoClients }
          [0, 1, 0, 1, 0, 1, 0, 0, 1, 0, 1, 7]).repo username password).2.1 = false :=
  ⟨by decide, by decide, by decide,
    (C23_no_first_administrator env72 { writable := true, data := none } 0 twoClients
      [0, 1, 0, 1, 0, 1, 0, 0, 1, 0, 1, 7] (by decide)).2.2.1⟩

/-- C24: for every stored user with role "admin" and status "approved",
`ApplyForAdmin` returns no error and stores the same record with status
"pending" (role still "admin"), every other user and all blogs unchanged; the
`apply-admin` command of that user answers "Admin application submitted
successfully."; a `Login` of that user on the resulting store never returns
`isAdmin = true` (with the right password it returned `true` before and returns
`false` now), and after `ApproveAdmin` of the user it returns `true` again. -/
theorem C24_approved_admin_reapplies (repo : InMemoryUserRepository) (username : String)
    (user : User) (hu : repo.Users.get? username = some user)
    (hrole : user.Role = "admin") (hstatus : user.Status = "approved") :
    (UserService.ApplyForAdmin repo username).2 = none ∧
    (UserService.ApplyForAdmin repo username).1.Users.get? username =
      some { user with Status := "pending" } ∧
    (∀ k : String, k ≠ username →
      (UserService.ApplyForAdmin repo username).1.Users.get? k = repo.Users.get? k) ∧
    (UserService.ApplyForAdmin repo username).1.Blogs = repo.Blogs ∧
    (∀ (env : Env) (isAdmin : Bool) (s : Session) (command : String) (args : List String),
      s.repo = repo → Fields (TrimSpace command) = "apply-admin" :: args →
      authStep env username isAdmin command s =
        (({ s with repo := (UserService.ApplyForAdmin repo username).1 } : Session).write
          ("Admin application submitted successfully." ++ "\n"), Flow.next)) ∧
    (∀ (bc : Bcrypt) (password : String),
      (UserController.Login bc (UserService.ApplyForAdmin repo username).1 username
        password).2.1 = false) ∧
    (∀ (bc : Bcrypt) (password : String),
      bc.CompareHashAndPassword user.Password password = true →
      UserController.Login bc repo username password = (user.Username, true, none) ∧
      UserController.Login bc (UserService.ApplyForAdmin repo username).1 username password =
        (user.Username, false, none) ∧
      UserController.Login bc
        ((UserService.ApplyForAdmin repo username).1.ApproveAdmin username).1 username
        password = (user.Username, true, none)) := by
  have hnot : ¬ (user.Status = "pending" ∧ user.Role = "admin") := by
    rw [hstatus]
    intro h
    exact absurd h.1 (by decide)
  have happ : UserService.ApplyForAdmin repo username =
      ({ repo with
          Users := repo.Users.set username ({ user with Status := "pending", Role := "admin" }) },
        none) := by
    simp [UserService.ApplyForAdmin, hu, hnot]
  have hrec : ({ user with Status := "pending", Role := "admin" } : User) =
      { user with Status := "pending" } := by
    rw [← hrole]
  have hget : (UserService.ApplyForAdmin repo username).1.Users.get? username =
      some { user with Status := "pending" } := by
    rw [happ, ← hrec]
    simp [GoMap.get?_set]
  refine ⟨by rw [happ], hget, ?_, by rw [happ], ?_, ?_, ?_⟩
  · intro k hk
    rw [happ]
    simp [GoMap.get?_set, hk]
  · intro env isAdmin s command args hs hc
    subst hs
    simp [authStep, hc, UserController.ApplyForAdmin, happ]
  · intro bc password
    cases hv : bc.CompareHashAndPassword user.Password password <;>
      simp [UserController.Login, UserService.LoginUser, FindUserByUsername, hget, hv]
  · intro bc password hv
    refine ⟨?_, ?_, ?_⟩
    · simp [UserController.Login, UserService.LoginUser, FindUserByUsername, hu, hv, hrole,
        hstatus]
    · simp [UserController.Login, UserService.LoginUser, FindUserByUsername, hget, hv]
    · have hback : ((UserService.ApplyForAdmin repo username).1.ApproveAdmin username).1.Users.get?
          username = some user := by
        simp only [ApproveAdmin, hget]
        simp [saveToFile_Users, GoMap.get?_set]
        cases user
        simp_all
      simp [UserController.Login, UserService.LoginUser, FindUserByUsername, hback, hv, hrole,
        hstatus]

/-- Instance of C24 on the sample repository: the approved administrator `bob`
sends `apply-admin` and then logs in without admin rights. -/
theorem C24_approved_admin_reapplies_witness :
    sampleRepo.Users.get? "bob" = some bob ∧ bob.Role = "admin" ∧ bob.Status = "approved" ∧
    UserController.Login bcrypt72 sampleRepo "bob" "hunter2" = ("bob", true, none) ∧
    UserController.Login bcrypt72 (UserService.ApplyForAdmin sampleRepo "bob").1 "bob"
      "hunter2" = ("bob", false, none) :=
  ⟨by decide, by decide, by decide,
    ((C24_approved_admin_reapplies sampleRepo "bob" bob (by decide) (by decide)
      (by decide)).2.2.2.2.2.2 bcrypt72 "hunter2" (by decide)).1,
    ((C24_approved_admin_reapplies sampleRepo "bob" bob (by decide) (by decide)
      (by decide)).2.2.2.2.2.2 bcrypt72 "hunter2" (by decide)).2.1⟩

end GoSocketServer
